import Mathlib

/-!
Shallow embedding of the outage-data extraction/normalization/persistence
engine (`scripts/parse_fact.js`) and proofs about it.

Modelling conventions, used throughout:
* JavaScript strings are modelled as Lean `String`/`List Char` (sequences of
  Unicode scalar values; all inputs considered here are in the Basic
  Multilingual Plane, where JS UTF-16 indices and scalar-value indices agree).
* Dynamic JSON-like values are modelled by the inductive type `Val`; JS
  objects are ordered association lists with distinct keys (a JS object can
  never hold two properties of the same name).
* Numeric literals are modelled as integers (`Int`): every number appearing
  in the schedule payloads and documents handled by the engine is integral.
* `undefined`/`null`/absent fields of the persisted document are modelled as
  `Option.none` wherever the script only ever tests them for truthiness.
* Host functionality invoked by the script (`JSON.parse`, the `Function`
  evaluator, `Intl` time-zone data, `crypto` sha256) is modelled explicitly
  next to the function that invokes it; each model carries a comment stating
  the fragment of host behaviour it covers.  The sha256 digest is threaded as
  an explicit function parameter `hash`, since nothing in the engine depends
  on anything but its determinism.
-/

/-- Dynamic values produced by parsing: the JSON data model.
Objects are ordered field lists (JS property insertion order); the engine
only ever builds them with pairwise-distinct keys. -/
inductive Val where
  | vnull : Val
  | vbool : Bool → Val
  | vnum : Int → Val
  | vstr : String → Val
  | varr : List Val → Val
  | vobj : List (String × Val) → Val
deriving Repr

/-- First field of the given name in an object value (JS property lookup);
`none` for absent fields and for non-object values. -/
def Val.getField : Val → String → Option Val
  | .vobj fs, k => fs.lookup k
  | _, _ => none

/-- JS truthiness of a value. -/
def vTruthy : Val → Bool
  | .vnull => false
  | .vbool b => b
  | .vnum n => n != 0
  | .vstr s => !s.isEmpty
  | .varr _ => true
  | .vobj _ => true

mutual
/-- Models the JS `String(v)` coercion on the values that can reach it here:
numbers print in decimal, arrays join their elements with `,` (with `null`
printing as the empty string inside a join), plain objects print as
`[object Object]`. -/
def jsToString : Val → String
  | .vnull => "null"
  | .vbool b => if b then "true" else "false"
  | .vnum n => toString n
  | .vstr s => s
  | .varr xs => String.intercalate "," (jsToStringList xs)
  | .vobj _ => "[object Object]"

def jsToStringList : List Val → List String
  | [] => []
  | .vnull :: rest => "" :: jsToStringList rest
  | v :: rest => jsToString v :: jsToStringList rest
end

/-- Models the JS `v.length` read followed by a strict comparison against a
number: strings report their length, arrays their element count, objects
their own `length` property when it is a number, everything else has no
numeric `length`. -/
def jsLength : Val → Option Int
  | .vstr s => some (s.length : Int)
  | .varr xs => some (xs.length : Int)
  | .vobj fs => match fs.lookup "length" with
    | some (.vnum n) => some n
    | _ => none
  | _ => none

/-- The `source` sub-object of the persisted document's `meta`. -/
structure SourceInfo where
  typ : Option String
  upstream : Option String
  notes : Option String
deriving Repr

/-- The persisted document's `lastUpdateStatus` block. -/
structure UpdateStatus where
  status : String
  ok : Bool
  code : Option Int
  message : Option String
  atTime : Option String
  attempt : Option Int
deriving Repr

/-- The persisted document's `meta` block.  `attempt`-style numeric fields
are `Option Int` (`none` models a missing or non-numeric field, which the
script guards for with `typeof`); string fields are `Option String` (`none`
models `null`/absent/falsy, the only distinctions the script ever makes). -/
structure MetaInfo where
  schemaVersion : Option String
  fileCreated : Option String
  timezone : Option String
  source : Option SourceInfo
  ttlSeconds : Option Int
  nextScheduledFetch : Option String
  etag : Option String
  contentHash : Option String
  dataEmpty : Option Bool
  dataEmptyReason : Option String
  rawFactIncluded : Option Bool
deriving Repr

/-- The persisted per-region document (`FactDocument`). -/
structure FactDoc where
  regionId : Option String
  regionName : Option String
  regionType : Option String
  lastUpdated : Option String
  data : Option Val
  lastUpdateStatus : Option UpdateStatus
  meta : Option MetaInfo
deriving Repr

/-- `lastUpdateStatus.code` of a document. -/
def FactDoc.statusCode (d : FactDoc) : Option Int := d.lastUpdateStatus.bind (·.code)

/-- `lastUpdateStatus.status` of a document. -/
def FactDoc.statusOf (d : FactDoc) : Option String := d.lastUpdateStatus.map (·.status)

/-- `lastUpdateStatus.ok` of a document. -/
def FactDoc.okOf (d : FactDoc) : Option Bool := d.lastUpdateStatus.map (·.ok)

/-- `lastUpdateStatus.attempt` of a document. -/
def FactDoc.attemptOf (d : FactDoc) : Option Int := d.lastUpdateStatus.bind (·.attempt)

/-- `meta.fileCreated` of a document. -/
def FactDoc.fileCreatedOf (d : FactDoc) : Option String := d.meta.bind (·.fileCreated)

/-- `meta.contentHash` of a document. -/
def FactDoc.contentHashOf (d : FactDoc) : Option String := d.meta.bind (·.contentHash)

/-- `meta.dataEmptyReason` of a document. -/
def FactDoc.dataEmptyReasonOf (d : FactDoc) : Option String := d.meta.bind (·.dataEmptyReason)

/-- Characters matched by the JS regex class `\s` (the ones that can occur in
the HTML pages handled here; the full class additionally contains the exotic
Unicode space separators, which behave identically in every use below). -/
def isJsWs (c : Char) : Bool :=
  c = ' ' || c = '\t' || c = '\n' || c = '\r' || c = '\x0b' || c = '\x0c' ||
  c = '\u00A0' || c = '\u2028' || c = '\u2029' || c = '\uFEFF'

/-- `startsWithL needle hay`: `needle` is a prefix of `hay`. -/
def startsWithL : List Char → List Char → Bool
  | [], _ => true
  | _ :: _, [] => false
  | a :: as, b :: bs => a = b && startsWithL as bs

/-- Helper for `idxOf`: first index `≥ i` at which `needle` occurs. -/
def idxOfAux (needle : List Char) : List Char → Nat → Option Nat
  | [], i => if needle = [] then some i else none
  | c :: rest, i =>
    if startsWithL needle (c :: rest) then some i else idxOfAux needle rest (i + 1)

/-- Models `hay.indexOf(needle)` (JS `String.prototype.indexOf`); `none`
models the return value `-1`. -/
def idxOf (hay needle : List Char) : Option Nat := idxOfAux needle hay 0

/-- The fixed marker token searched for in the HTML (`parse_fact.js` line 54). -/
def marker : List Char := "DisconSchedule.fact =".toList

/-- The brace scanner of `extractFact` (`parse_fact.js` lines 66-79): walks the
input keeping a depth counter, `acc` being the part of the span already seen;
every `\x7b` and `\x7d` counts, quoted or not.  Returns the span through the
brace where the depth first returns to zero, `none` at end of input. -/
def scanBraces (depth : Int) (acc : List Char) : List Char → Option (List Char)
  | [] => none
  | c :: rest =>
    if c = '{' then scanBraces (depth + 1) (acc ++ [c]) rest
    else if c = '}' then
      if depth - 1 = 0 then some (acc ++ [c])
      else scanBraces (depth - 1) (acc ++ [c]) rest
    else scanBraces depth (acc ++ [c]) rest

/-- A successful extraction: the balanced-brace text span and its bounds. -/
structure Extraction where
  jsonLike : String
  startIndex : Nat
  endIndex : Nat
deriving Repr

/-- The Literal Locator (`extractFact`, `parse_fact.js` lines 53-81): find the
marker, skip whitespace, require `\x7b`, scan to the matching `\x7d`. -/
def extractFact (html : String) : Except String Extraction :=
  let cs := html.toList
  match idxOf cs marker with
  | none => .error "Marker \x60DisconSchedule.fact =\x60 not found"
  | some idx =>
    let afterMarker := cs.drop (idx + marker.length)
    let rest := afterMarker.dropWhile isJsWs
    let j := idx + marker.length + (afterMarker.length - rest.length)
    if rest.head? = some '{' then
      match scanBraces 0 [] rest with
      | some span => .ok ⟨String.mk span, j, j + span.length⟩
      | none => .error "Unbalanced braces while extracting fact object"
    else .error "Expected \x60\x7b\x60 after \x60DisconSchedule.fact =\x60"

/-- Per-character contribution to the brace depth. -/
def charDelta (c : Char) : Int := if c = '{' then 1 else if c = '}' then -1 else 0

/-- Net brace depth of a character list (specification-side notion used to
state the Literal Locator's contract). -/
def braceDelta (cs : List Char) : Int := (cs.map charDelta).sum

/-- JSON whitespace (the characters `JSON.parse` skips between tokens). -/
def isJsonWs (c : Char) : Bool := c = ' ' || c = '\t' || c = '\n' || c = '\r'

/-- Drop leading JSON whitespace. -/
def skipWsJ (cs : List Char) : List Char := cs.dropWhile isJsonWs

/-- Value of one hexadecimal digit, for `\uXXXX` string escapes. -/
def hexDigitVal (c : Char) : Option Nat :=
  if c.isDigit then some (c.toNat - 48)
  else if 'a' ≤ c && c ≤ 'f' then some (10 + (c.toNat - 97))
  else if 'A' ≤ c && c ≤ 'F' then some (10 + (c.toNat - 65))
  else none

/-- Body of a quoted string literal, after the opening quote `q`: returns the
decoded characters and the input after the closing quote.  Handles the JSON
escapes; `\uXXXX` is modelled for scalar values only (the engine's inputs
contain no lone surrogates). -/
def jpStringBody (q : Char) : Nat → List Char → Option (List Char × List Char)
  | 0, _ => none
  | _ + 1, [] => none
  | fuel + 1, c :: rest =>
    if c = q then some ([], rest)
    else if c = '\\' then
      match rest with
      | [] => none
      | e :: rest2 =>
        let dec : Option (Char × List Char) :=
          if e = 'n' then some ('\n', rest2)
          else if e = 't' then some ('\t', rest2)
          else if e = 'r' then some ('\r', rest2)
          else if e = 'b' then some ('\x08', rest2)
          else if e = 'f' then some ('\x0c', rest2)
          else if e = '/' then some ('/', rest2)
          else if e = '\\' then some ('\\', rest2)
          else if e = '"' then some ('"', rest2)
          else if e = '\'' then some ('\'', rest2)
          else if e = 'u' then
            match rest2 with
            | a :: b :: c1 :: d :: rest3 =>
              match hexDigitVal a, hexDigitVal b, hexDigitVal c1, hexDigitVal d with
              | some ha, some hb, some hc, some hd =>
                some (Char.ofNat (((ha * 16 + hb) * 16 + hc) * 16 + hd), rest3)
              | _, _, _, _ => none
            | _ => none
          else none
        match dec with
        | some (ch, rest3) =>
          match jpStringBody q fuel rest3 with
          | some (tail, rem) => some (ch :: tail, rem)
          | none => none
        | none => none
    else
      match jpStringBody q fuel rest with
      | some (tail, rem) => some (c :: tail, rem)
      | none => none

/-- An integer literal: optional `-`, then digits.  JSON forbids leading
zeros; literals with a fractional or exponent part are integral in every
payload the engine handles and are outside this embedding (see `Val`). -/
def jpNumber (cs : List Char) : Option (Int × List Char) :=
  let (neg, cs1) := match cs with
    | '-' :: t => (true, t)
    | _ => (false, cs)
  let (digits, rest) := cs1.span Char.isDigit
  match digits with
  | [] => none
  | '0' :: _ :: _ => none
  | _ =>
    match rest with
    | '.' :: _ => none
    | 'e' :: _ => none
    | 'E' :: _ => none
    | _ =>
      let n : Int := digits.foldl (fun a c => a * 10 + (c.toNat - '0'.toNat : Int)) 0
      some (if neg then -n else n, rest)

/-- Insert a field into an object under JS semantics: a repeated key keeps
its original position and takes the new value (`JSON.parse` and object
literals both give the last duplicate's value). -/
def objInsert (fs : List (String × Val)) (k : String) (v : Val) : List (String × Val) :=
  match fs with
  | [] => [(k, v)]
  | (k', v') :: rest => if k' = k then (k, v) :: rest else (k', v') :: objInsert rest k v

mutual
/-- One JSON value, strict grammar: models `JSON.parse`'s value parser. -/
def jpValue : Nat → List Char → Option (Val × List Char)
  | 0, _ => none
  | fuel + 1, cs =>
    match skipWsJ cs with
    | [] => none
    | c :: rest =>
      if c = '{' then jpMembers fuel (skipWsJ rest) [] true
      else if c = '[' then jpElements fuel (skipWsJ rest) [] true
      else if c = '"' then
        match jpStringBody '"' (rest.length + 1) rest with
        | some (chars, rem) => some (.vstr (String.mk chars), rem)
        | none => none
      else if startsWithL "true".toList (c :: rest) then some (.vbool true, (c :: rest).drop 4)
      else if startsWithL "false".toList (c :: rest) then some (.vbool false, (c :: rest).drop 5)
      else if startsWithL "null".toList (c :: rest) then some (.vnull, (c :: rest).drop 4)
      else
        match jpNumber (c :: rest) with
        | some (n, rem) => some (.vnum n, rem)
        | none => none

/-- Object members after `\x7b` (strict JSON): `first` is true before the
first member. -/
def jpMembers : Nat → List Char → List (String × Val) → Bool → Option (Val × List Char)
  | 0, _, _, _ => none
  | fuel + 1, cs, acc, first =>
    match cs with
    | '}' :: rest => some (.vobj acc, rest)
    | _ =>
      let cs := if first then some cs else
        match cs with
        | ',' :: rest => some (skipWsJ rest)
        | _ => none
      match cs with
      | none => none
      | some cs =>
        match cs with
        | '"' :: rest =>
          match jpStringBody '"' (rest.length + 1) rest with
          | some (kchars, rem) =>
            match skipWsJ rem with
            | ':' :: rem2 =>
              match jpValue fuel rem2 with
              | some (v, rem3) =>
                jpMembers fuel (skipWsJ rem3) (objInsert acc (String.mk kchars) v) false
              | none => none
            | _ => none
          | none => none
        | _ => none

/-- Array elements after `[` (strict JSON). -/
def jpElements : Nat → List Char → List Val → Bool → Option (Val × List Char)
  | 0, _, _, _ => none
  | fuel + 1, cs, acc, first =>
    match cs with
    | ']' :: rest => if first then some (.varr acc.reverse, rest) else none
    | _ =>
      let cs := if first then some cs else
        match cs with
        | ',' :: rest => some rest
        | _ => none
      match cs with
      | none => none
      | some cs =>
        match jpValue fuel cs with
        | some (v, rem) =>
          match skipWsJ rem with
          | ']' :: rest => some (.varr (v :: acc).reverse, rest)
          | ',' :: rest => jpElements fuel (',' :: rest) (v :: acc) false
          | _ => none
        | none => none
end

/-- Models the host `JSON.parse(text)` (`parse_fact.js` line 86): strict JSON,
whole input must be consumed; `none` models the thrown `SyntaxError`. -/
def jsonParse (text : String) : Option Val :=
  let cs := text.toList
  match jpValue (cs.length + 1) cs with
  | some (v, rest) => if skipWsJ rest = [] then some v else none
  | none => none

/-- First character of a JS identifier. -/
def identStart (c : Char) : Bool := c.isAlpha || c = '_' || c = '$'

/-- Later character of a JS identifier. -/
def identChar (c : Char) : Bool := c.isAlphanum || c = '_' || c = '$'

mutual
/-- Models the host JavaScript evaluation
`Function('"use strict"; return (' + text + ');')()` (`parse_fact.js`
line 91) on the fragment of JavaScript exercised in this development:
object/array literals whose keys may be double-quoted, single-quoted or bare
identifiers, string/number/boolean/null literals, and `+` chains over number
literals (which the host *evaluates*, demonstrating that this code path
computes rather than rejects non-literal expressions).  JavaScript text
outside this fragment is outside the model: on it this function's result
carries no information about the host (the host would happily execute
arbitrary expressions, including function calls with side effects).
No theorem below applies this model beyond the fragment. -/
def jeExpr : Nat → List Char → Option (Val × List Char)
  | 0, _ => none
  | fuel + 1, cs => do
    let (v, rest) ← jePrimary fuel cs
    jeAddLoop fuel v (skipWsJ rest)

/-- `+` continuation of an additive expression (numbers only). -/
def jeAddLoop : Nat → Val → List Char → Option (Val × List Char)
  | 0, _, _ => none
  | fuel + 1, v, cs =>
    match cs with
    | '+' :: rest =>
      match v with
      | .vnum a =>
        match jePrimary fuel (skipWsJ rest) with
        | some (.vnum b, rest2) => jeAddLoop fuel (.vnum (a + b)) (skipWsJ rest2)
        | _ => none
      | _ => none
    | _ => some (v, cs)

/-- A primary expression of the modelled JS fragment. -/
def jePrimary : Nat → List Char → Option (Val × List Char)
  | 0, _ => none
  | fuel + 1, cs =>
    match skipWsJ cs with
    | [] => none
    | c :: rest =>
      if c = '{' then jeMembers fuel (skipWsJ rest) [] true
      else if c = '[' then jeElements fuel (skipWsJ rest) [] true
      else if c = '"' || c = '\'' then
        match jpStringBody c (rest.length + 1) rest with
        | some (chars, rem) => some (.vstr (String.mk chars), rem)
        | none => none
      else if startsWithL "true".toList (c :: rest) then some (.vbool true, (c :: rest).drop 4)
      else if startsWithL "false".toList (c :: rest) then some (.vbool false, (c :: rest).drop 5)
      else if startsWithL "null".toList (c :: rest) then some (.vnull, (c :: rest).drop 4)
      else
        match jpNumber (c :: rest) with
        | some (n, rem) => some (.vnum n, rem)
        | none => none

/-- Object members of a JS object literal (loosely-quoted keys allowed). -/
def jeMembers : Nat → List Char → List (String × Val) → Bool → Option (Val × List Char)
  | 0, _, _, _ => none
  | fuel + 1, cs, acc, first =>
    match cs with
    | '}' :: rest => some (.vobj acc, rest)
    | _ =>
      let cs := if first then some cs else
        match cs with
        | ',' :: rest => some (skipWsJ rest)
        | _ => none
      match cs with
      | none => none
      | some cs =>
        let key : Option (String × List Char) :=
          match cs with
          | q :: rest =>
            if q = '"' || q = '\'' then
              match jpStringBody q (rest.length + 1) rest with
              | some (kchars, rem) => some (String.mk kchars, rem)
              | none => none
            else if identStart q then
              let (ks, rem) := rest.span identChar
              some (String.mk (q :: ks), rem)
            else none
          | [] => none
        match key with
        | some (k, rem) =>
          match skipWsJ rem with
          | ':' :: rem2 =>
            match jeExpr fuel rem2 with
            | some (v, rem3) => jeMembers fuel (skipWsJ rem3) (objInsert acc k v) false
            | none => none
          | _ => none
        | none => none

/-- Array elements of a JS array literal. -/
def jeElements : Nat → List Char → List Val → Bool → Option (Val × List Char)
  | 0, _, _, _ => none
  | fuel + 1, cs, acc, first =>
    match cs with
    | ']' :: rest => if first then some (.varr acc.reverse, rest) else none
    | _ =>
      let cs := if first then some cs else
        match cs with
        | ',' :: rest => some rest
        | _ => none
      match cs with
      | none => none
      | some cs =>
        match jeExpr fuel cs with
        | some (v, rem) =>
          match skipWsJ rem with
          | ']' :: rest => some (.varr (v :: acc).reverse, rest)
          | ',' :: rest => jeElements fuel (',' :: rest) (v :: acc) false
          | _ => none
        | none => none
end

/-- Whole-expression evaluation of the text span: the expression must consume
the entire input (the host wraps it in parentheses, so trailing garbage is a
`SyntaxError`). -/
def jsEval (text : String) : Option Val :=
  let cs := text.toList
  match jeExpr (cs.length + 1) cs with
  | some (v, rest) => if skipWsJ rest = [] then some v else none
  | none => none

/-- `tryParseObject` (`parse_fact.js` lines 83-96): strict `JSON.parse`
first; on failure the text is handed to the `Function(...)` evaluator; the
result is tagged with the method that succeeded.  The error message of the
host exception is not modelled beyond its presence. -/
def tryParseObject (text : String) : Except String (Val × String) :=
  match jsonParse text with
  | some v => .ok (v, "json")
  | none =>
    match jsEval text with
    | some v => .ok (v, "eval")
    | none => .error "Failed to parse object"

/-- `pad2` (`parse_fact.js` line 170): `String(n).padStart(2, '0')`. -/
def pad2 (n : Int) : String :=
  let s := toString n
  if s.length < 2 then "0" ++ s else s

/-- Days from the civil epoch 1970-01-01 to year/month/day (proleptic
Gregorian; month in 1..12 here — out-of-range months are normalized by the
caller `dateUTCMinutes`, as JS `Date.UTC` does). -/
def daysFromCivil (y m d : Int) : Int :=
  let y := y - (if m ≤ 2 then 1 else 0)
  let era := (if 0 ≤ y then y else y - 399) / 400
  let yoe := y - era * 400
  let mp := m + (if 2 < m then -3 else 9)
  let doy := (153 * mp + 2) / 5 + d - 1
  let doe := yoe * 365 + yoe / 4 - yoe / 100 + doy
  era * 146097 + doe - 719468

/-- Inverse of `daysFromCivil`: year/month/day of a day count. -/
def civilFromDays (z : Int) : Int × Int × Int :=
  let z := z + 719468
  let era := (if 0 ≤ z then z else z - 146096) / 146097
  let doe := z - era * 146097
  let yoe := (doe - doe / 1460 + doe / 36524 - doe / 146096) / 365
  let y := yoe + era * 400
  let doy := doe - (365 * yoe + yoe / 4 - yoe / 100)
  let mp := (5 * doy + 2) / 153
  let d := doy - (153 * mp + 2) / 5 + 1
  let m := mp + (if mp < 10 then 3 else -9)
  (y + (if m ≤ 2 then 1 else 0), m, d)

/-- Models JS `Date.UTC(Y, M, D, h, mi, 0)` in minutes since the epoch:
out-of-range month indices roll over, years 0..99 map to 1900..1999. -/
def dateUTCMinutes (Y Mzero D h mi : Int) : Int :=
  let Y := if 0 ≤ Y && Y ≤ 99 then Y + 1900 else Y
  let ym := Y + Mzero.fdiv 12
  let mn := Mzero.emod 12
  (daysFromCivil ym (mn + 1) 1 + (D - 1)) * 1440 + h * 60 + mi

/-- Models JS `Number(s)` on the strings that reach it here: optional sign
and decimal digits (`""` is 0); anything else — including the non-integral
numerals outside this embedding — is NaN, modelled as `none`. -/
def jsNumber (s : String) : Option Int :=
  let cs := s.toList
  if cs = [] then some 0
  else
    let (neg, cs1) := match cs with
      | '-' :: t => (true, t)
      | '+' :: t => (false, t)
      | _ => (false, cs)
    if cs1 ≠ [] && cs1.all Char.isDigit then
      let n : Int := cs1.foldl (fun a c => a * 10 + (c.toNat - '0'.toNat : Int)) 0
      some (if neg then -n else n)
    else none

/-- Day count of the last Sunday on or before the last day of the given
month.  1970-01-01 was a Thursday. -/
def lastSundayDays (year month lastDay : Int) : Int :=
  let d := daysFromCivil year month lastDay
  d - (d + 4).emod 7

/-- Models the host time-zone database consulted through
`Intl.DateTimeFormat(..., timeZone: 'Europe/Kyiv')` in `tzOffsetMinutes`
(`parse_fact.js` lines 172-184) for the era the schedules live in
(1998 onward): standard offset UTC+2, summer offset UTC+3 between the last
Sunday of March, 01:00 UTC, and the last Sunday of October, 01:00 UTC. -/
def kyivOffsetMinutes (tsMin : Int) : Int :=
  let d := civilFromDays (tsMin.fdiv 1440)
  let y := d.1
  let dstStart := lastSundayDays y 3 31 * 1440 + 60
  let dstEnd := lastSundayDays y 10 31 * 1440 + 60
  if dstStart ≤ tsMin && tsMin < dstEnd then 180 else 120

/-- `tzOffsetMinutes` (`parse_fact.js` lines 172-184): the zone's UTC offset
in minutes at the given instant, obtained in the script by formatting the
instant in the zone and re-reading the wall-clock fields as UTC.  The zone is
always `'Europe/Kyiv'` (see `toKyivIso`). -/
def tzOffsetMinutes (tsMin : Int) : Int := kyivOffsetMinutes tsMin

/-- `zonedTimeToUtc` (`parse_fact.js` lines 186-195): two-pass conversion of
a wall-clock date/time in the zone to a UTC instant (minutes).  `none`
models the `RangeError` the script's caller catches when the year component
is NaN (formatting an invalid `Date` throws). -/
def zonedTimeToUtc (dateStr timeStr : String) : Option Int :=
  let dparts := dateStr.splitOn "-"
  let tparts := timeStr.splitOn ":"
  let numAt := fun (l : List String) (i : Nat) =>
    match l.get? i with
    | some s => jsNumber s
    | none => none
  let jsOrDflt := fun (v : Option Int) (dflt : Int) =>
    match v with
    | some x => if x = 0 then dflt else x
    | none => dflt
  match numAt dparts 0 with
  | none => none
  | some Y =>
    let M := jsOrDflt (numAt dparts 1) 1
    let D := jsOrDflt (numAt dparts 2) 1
    let h := jsOrDflt (numAt tparts 0) 0
    let mi := jsOrDflt (numAt tparts 1) 0
    let ts := dateUTCMinutes Y (M - 1) D h mi
    let off := tzOffsetMinutes ts
    some (ts - off)

/-- `formatOffset` (`parse_fact.js` lines 197-203). -/
def formatOffset (totalMinutes : Int) : String :=
  let sign := if 0 ≤ totalMinutes then "+" else "-"
  let a : Int := totalMinutes.natAbs
  sign ++ pad2 (a / 60) ++ ":" ++ pad2 (a % 60)

/-- `toKyivIso` (`parse_fact.js` lines 205-213): converts the wall-clock
pair to a UTC instant, then formats that instant's **UTC** calendar fields
(`getUTC*`) and appends the zone's offset at that instant.  `none` models
the exception propagated to the caller's `catch`. -/
def toKyivIso (dateStr timeStr : String) : Option String :=
  match zonedTimeToUtc dateStr timeStr with
  | none => none
  | some utc =>
    let off := tzOffsetMinutes utc
    let days := utc.fdiv 1440
    let mins := utc.emod 1440
    let c := civilFromDays days
    let offsetStr := formatOffset off
    some (toString c.1 ++ "-" ++ pad2 c.2.1 ++ "-" ++ pad2 c.2.2 ++ "T" ++
      pad2 (mins / 60) ++ ":" ++ pad2 (mins % 60) ++ ":" ++ pad2 0 ++ offsetStr)

/-- A letter of the group-key regex class `[A-ZА-Я]` under the `i` flag:
ASCII letters and the Cyrillic А-Я/а-я block. -/
def isGroupLetter (c : Char) : Bool :=
  ('A' ≤ c && c ≤ 'Z') || ('a' ≤ c && c ≤ 'z') ||
  ('А' ≤ c && c ≤ 'Я') || ('а' ≤ c && c ≤ 'я')

/-- The group-identifier test `/^[A-ZА-Я]\x7b2,\x7d\d+\.\d+$/i`
(`parse_fact.js` line 220): two or more letters, digits, a dot, digits.
The character classes are disjoint, so the regex is equivalent to this
greedy scan. -/
def groupKeyRe (s : String) : Bool :=
  let cs := s.toList
  let p1 := cs.span isGroupLetter
  decide (2 ≤ p1.1.length) &&
    (let p2 := p1.2.span Char.isDigit
     decide (1 ≤ p2.1.length) &&
       match p2.2 with
       | '.' :: rest =>
         let p3 := rest.span Char.isDigit
         decide (1 ≤ p3.1.length) && p3.2.isEmpty
       | _ => false)

/-- The time test `/^\d\x7b1,2\x7d:\d\x7b2\x7d$/` (`parse_fact.js` line 232),
applied — as `RegExp.test` does — to the `String(·)` coercion of the value. -/
def timeReTest (s : String) : Bool :=
  match s.toList with
  | [a, ':', c, d] => a.isDigit && c.isDigit && d.isDigit
  | [a, b, ':', c, d] => a.isDigit && b.isDigit && c.isDigit && d.isDigit
  | _ => false

/-- A JS `||`-chain over property reads, e.g.
`entry.date || entry.day || entry.d || null`: the first truthy field value,
else `null` (`none`). -/
def pickAlias (fs : List (String × Val)) : List String → Option Val
  | [] => none
  | n :: rest =>
    match fs.lookup n with
    | some v => if vTruthy v then some v else pickAlias fs rest
    | none => pickAlias fs rest

/-- The guard of the entry-reshaping branch (`parse_fact.js` lines 228-233):
the entry is an object, has truthy date/start/end fields under the aliases,
and both times pass `timeRe` after `String` coercion. -/
def entryShapeMatches (entry : Val) : Bool :=
  match entry with
  | .vobj fs =>
    match pickAlias fs ["date", "day", "d"],
          pickAlias fs ["start", "from", "begin", "s"],
          pickAlias fs ["end", "to", "finish", "e"] with
    | some _, some sv, some ev => timeReTest (jsToString sv) && timeReTest (jsToString ev)
    | _, _, _ => false
  | _ => false

/-- Per-entry normalization, the body of the `for (const entry of v)` loop
(`parse_fact.js` lines 227-247): a matching entry becomes
`\x7bdate, startLocal, endLocal\x7d` (after left-padding a 4-character time
with `0`), and on a conversion exception — or for any non-matching entry —
the raw entry is kept. -/
def normalizeEntry (entry : Val) : Val :=
  if entryShapeMatches entry then
    match entry with
    | .vobj fs =>
      match pickAlias fs ["date", "day", "d"],
            pickAlias fs ["start", "from", "begin", "s"],
            pickAlias fs ["end", "to", "finish", "e"] with
      | some dv, some sv, some ev =>
        let sv := if jsLength sv = some 4 then Val.vstr ("0" ++ jsToString sv) else sv
        let ev := if jsLength ev = some 4 then Val.vstr ("0" ++ jsToString ev) else ev
        match toKyivIso (jsToString dv) (jsToString sv),
              toKyivIso (jsToString dv) (jsToString ev) with
        | some startISO, some endISO =>
          .vobj [("date", .vstr (jsToString dv)), ("startLocal", .vstr startISO),
                 ("endLocal", .vstr endISO)]
        | _, _ => entry
      | _, _, _ => entry
    | _ => entry
  else entry

/-- `extractGroupsWithIso` (`parse_fact.js` lines 215-251): keep only keys
matching the group pattern; sequence values get each entry normalized, other
values are kept as-is; `none` both for non-object input and when nothing
survives the filter (`Object.keys(out).length ? out : null`).  The loop body
for one key/value pair: -/
def groupPairTransform (kv : String × Val) : Option (String × Val) :=
  if groupKeyRe kv.1 then
    some (kv.1, match kv.2 with
      | .varr entries => Val.varr (entries.map normalizeEntry)
      | v => v)
  else none

/-- Continuation of `extractGroupsWithIso`: the filter over the object's
key/value pairs, empty output reported as `null`. -/
def extractGroupsWithIso (data : Val) : Option Val :=
  match data with
  | .vobj fs =>
    let out := fs.filterMap groupPairTransform
    if out.isEmpty then none else some (.vobj out)
  | _ => none

/-- The data selection of `normalize` (`parse_fact.js` lines 255-273): the
`data` to store and the `dataEmptyReason`.  When the parsed value carries a
non-null `data` field that field is normalized; otherwise the *whole* parsed
value is stored verbatim under `data` and flagged with
`dataEmptyReason = "no-data-field-present"`. -/
def normBranch (rawObj : Val) : Val × Option String :=
  let dataField := rawObj.getField "data"
  let hasNonNull := match dataField with
    | some .vnull => false
    | some _ => true
    | none => false
  if hasNonNull then
    let df := dataField.getD .vnull
    match extractGroupsWithIso df with
    | some groups => (groups, (none : Option String))
    | none => (df, some "stored-as-is-unrecognized-structure")
  else (rawObj, some "no-data-field-present")

/-- `normalize` (`parse_fact.js` lines 253-307; named `normalizeFact` here
because Mathlib already owns the root name `normalize`): the fresh success
document built around `normBranch`. -/
def normalizeFact (regionId upstream : Option String) (rawObj : Val) (now : String) : FactDoc :=
  let dataField := rawObj.getField "data"
  let branch := normBranch rawObj
  { regionId := regionId
    regionName := none
    regionType := none
    lastUpdated := some now
    data := some branch.1
    lastUpdateStatus := some
      { status := "parsed", ok := true, code := some 200, message := none,
        atTime := some now, attempt := some 1 }
    meta := some
      { schemaVersion := some "1.0.0"
        fileCreated := some now
        timezone := some "Europe/Kyiv"
        source := some
          { typ := some "proxy", upstream := upstream,
            notes := some "Extracted from DisconSchedule.fact in upstream HTML" }
        ttlSeconds := some 300
        nextScheduledFetch := none
        etag := none
        contentHash := none
        dataEmpty := some false
        dataEmptyReason := branch.2
        rawFactIncluded := some dataField.isNone } }

/-- The inline fallback template (`parse_fact.js` lines 114-133), used when
`data/_template.json` is unavailable. -/
def inlineTemplate (regionId upstream : Option String) (now : String) : FactDoc :=
  { regionId := regionId
    regionName := none
    regionType := none
    lastUpdated := none
    data := some (.varr [])
    lastUpdateStatus := some
      { status := "idle", ok := true, code := none, message := none,
        atTime := none, attempt := some 0 }
    meta := some
      { schemaVersion := some "1.0.0"
        fileCreated := some now
        timezone := some "Europe/Kyiv"
        source := some
          { typ := some "proxy", upstream := upstream, notes := some "Initialized by parser" }
        ttlSeconds := some 300
        nextScheduledFetch := none
        etag := none
        contentHash := none
        dataEmpty := some true
        dataEmptyReason := some "initialized"
        rawFactIncluded := none } }

/-- `loadTemplateBase` (`parse_fact.js` lines 106-142): the template read
from `data/_template.json` — a repository data file, passed in here as
`template` (`none` models the read failing, which falls back to the inline
template) — with `regionId`, `source.upstream` and a missing `fileCreated`
filled in. -/
def loadTemplateBase (template : Option FactDoc) (regionId upstream : Option String)
    (now : String) : FactDoc :=
  let t := template.getD (inlineTemplate regionId upstream now)
  let t := { t with regionId := match regionId with
    | some r => some r
    | none => t.regionId }
  let t := match t.meta with
    | some m =>
      match m.source with
      | some s =>
        { t with meta := some { m with source := some { s with
            upstream := match upstream with
              | some u => some u
              | none => s.upstream } } }
      | none => t
    | none => t
  match t.meta with
  | some m =>
    match m.fileCreated with
    | some _ => t
    | none => { t with meta := some { m with fileCreated := some now } }
  | none => t

/-- The meta mutation of `updateStatusOnError` (`parse_fact.js` lines
157-164): fill a missing `fileCreated`, overwrite `source.upstream` when an
upstream was supplied, and leave every other meta field — `contentHash`,
`dataEmpty`, ... — untouched. -/
def errMeta (pm : MetaInfo) (upstream : Option String) (now : String) : MetaInfo :=
  let m := match pm.fileCreated with
    | some _ => pm
    | none => { pm with fileCreated := some now }
  match upstream with
  | none => m
  | some u =>
    let s := m.source.getD { typ := some "proxy", upstream := none, notes := none }
    { m with source := some { s with upstream := some u } }

/-- `updateStatusOnError` (`parse_fact.js` lines 144-166): the error-path
merge.  `data` and `lastUpdated` of the base document are left as-is; only
the status block and (via `errMeta`) the `fileCreated`/`source.upstream`
meta fields are touched. -/
def updateStatusOnError (existing : Option FactDoc) (regionId upstream : Option String)
    (code : Int) (message : String) (now : String) (template : Option FactDoc) : FactDoc :=
  let base := match existing with
    | some e => e
    | none => loadTemplateBase template regionId upstream now
  let prevAttempt := match base.lastUpdateStatus with
    | some st => st.attempt.getD 0
    | none => 0
  let newSt : UpdateStatus :=
    { status := "error", ok := false, code := some code, message := some message,
      atTime := some now, attempt := some (prevAttempt + 1) }
  let base := { base with lastUpdateStatus := some newSt }
  match base.meta with
  | none => base
  | some m => { base with meta := some (errMeta m upstream now) }

/-- The `dataEmpty` recomputation of the success path (`parse_fact.js`
line 378): falsy data is empty; otherwise arrays by length and other values
by `Object.keys(·).length` (strings count their characters, other
primitives have no own keys). -/
def jsDataEmpty : Option Val → Bool
  | none => true
  | some v =>
    if !vTruthy v then true
    else match v with
      | .varr xs => xs.isEmpty
      | .vobj fs => fs.isEmpty
      | .vstr s => s.isEmpty
      | _ => true

/-- The success path of `main` (`parse_fact.js` lines 356-384): the fresh
document from `normalize`, merged with the existing document (carrying
`fileCreated` forward and chaining `attempt`), with the content hash of the
raw extracted span and the recomputed `dataEmpty` flag.  The two `isoNow()`
calls of one invocation (lines 254 and 356) are modelled as the same
instant `now`. -/
def successDoc (region upstream : Option String) (v : Val) (jsonLike : String)
    (existing : Option FactDoc) (hash : String → String) (now : String) : FactDoc :=
  let outObj := normalizeFact region upstream v now
  let outObj := match existing with
    | some ex =>
      match ex.meta with
      | some exm =>
        { outObj with meta := outObj.meta.map fun (m : MetaInfo) =>
          { m with fileCreated := match exm.fileCreated with
            | some f => some f
            | none => m.fileCreated } }
      | none => outObj
    | none => outObj
  let prevAttempt := match existing with
    | some ex =>
      match ex.lastUpdateStatus with
      | some st => st.attempt.getD 0
      | none => 0
    | none => 0
  let newSt : UpdateStatus :=
    { status := "parsed", ok := true, code := some 200, message := none,
      atTime := some now, attempt := some (prevAttempt + 1) }
  let outObj := { outObj with lastUpdateStatus := some newSt }
  { outObj with meta := outObj.meta.map fun (m : MetaInfo) =>
    let m := { m with contentHash := some (hash jsonLike) }
    let de := jsDataEmpty outObj.data
    let m := { m with dataEmpty := some de }
    if de && m.dataEmptyReason.isNone then
      { m with dataEmptyReason := some "empty-data-after-parse" }
    else m }

/-- State of the output path before an invocation: no file, a file that is
not valid JSON, or a previously persisted document. -/
inductive PriorFile where
  | absent : PriorFile
  | corrupted : PriorFile
  | doc : FactDoc → PriorFile

/-- `loadExisting` (`parse_fact.js` lines 98-104): `JSON.parse` of the
output file with every failure — missing file or invalid JSON alike —
caught and turned into `null`. -/
def loadExisting : PriorFile → Option FactDoc
  | .absent => none
  | .corrupted => none
  | .doc d => some d

/-- `main` (`parse_fact.js` lines 316-386) as a function of the invocation's
environment: the `--region`/`--in`/`--out`/`--upstream` arguments, the input
file's content (`none` when `fs.existsSync` is false), the state of the
output path, the template file, the sha256 digest (threaded as `hash`) and
the invocation instant.  The result is the process exit status and the
document written to the output path (`none` when nothing is written).
JSON serialization and the atomic temp-file rename are not modelled: the
written document is compared structurally. -/
def runMain (region input output upstream : Option String) (inputFile : Option String)
    (prior : PriorFile) (template : Option FactDoc) (hash : String → String)
    (now : String) : Int × Option FactDoc :=
  if region.isNone || input.isNone || output.isNone then (2, none)
  else
    match inputFile with
    | none =>
      (0, some (updateStatusOnError (loadExisting prior) region upstream 404
        ("Input not found: " ++ input.getD "") now template))
    | some html =>
      match extractFact html with
      | .error e =>
        (0, some (updateStatusOnError (loadExisting prior) region upstream 422
          (e ++ " in " ++ input.getD "") now template))
      | .ok ext =>
        match tryParseObject ext.jsonLike with
        | .error e =>
          (0, some (updateStatusOnError (loadExisting prior) region upstream 422
            (e ++ " in " ++ input.getD "") now template))
        | .ok pv =>
          (0, some (successDoc region upstream pv.1 ext.jsonLike (loadExisting prior) hash now))

/-- The module entry point (`parse_fact.js` lines 388-407): `main` inside a
`try`; an exception thrown during processing (modelled by `crash`, which
preempts `main`) is caught, an error-500 status is persisted when an output
path is known, and the process still exits 0. -/
def moduleEntry (region input output upstream : Option String) (inputFile : Option String)
    (prior : PriorFile) (template : Option FactDoc) (hash : String → String)
    (now : String) (crash : Option String) : Int × Option FactDoc :=
  match crash with
  | some msg =>
    match output with
    | some _ =>
      (0, some (updateStatusOnError (loadExisting prior) region upstream 500
        ("parse_fact crashed: " ++ msg) now template))
    | none => (0, none)
  | none => runMain region input output upstream inputFile prior template hash now

/-- The previous attempt count the success path chains from
(`parse_fact.js` line 365). -/
def prevAttemptOf : Option FactDoc → Int
  | some ex =>
    match ex.lastUpdateStatus with
    | some st => st.attempt.getD 0
    | none => 0
  | none => 0

/-- The `fileCreated` value the success path ends up with
(`parse_fact.js` lines 362-364): the existing document's, else the fresh
`now`. -/
def carriedFileCreated : Option FactDoc → String → Option String
  | some ex, now =>
    match ex.meta with
    | some exm =>
      match exm.fileCreated with
      | some f => some f
      | none => some now
    | none => some now
  | none, now => some now

/-- The `dataEmptyReason` the success path ends up with
(`parse_fact.js` lines 379-381). -/
def finalReason (v : Val) : Option String :=
  if jsDataEmpty (some (normBranch v).1) && (normBranch v).2.isNone then
    some "empty-data-after-parse"
  else (normBranch v).2

/-- An identity digest: stands in for sha256 in the concrete scenarios — the
engine's behaviour depends only on the digest being a function of the span. -/
def idHash : String → String := fun s => s

/-- The spec's concrete scenario input (§8): HTML embedding the fact object
for group GPV1.1 on 2025-03-30. -/
def c3html : String :=
  "<script>DisconSchedule.fact = \x7b\"GPV1.1\":[\x7b\"date\":\"2025-03-30\",\"start\":\"2:00\",\"end\":\"4:00\"\x7d]\x7d;</script>"

/-- The value `JSON.parse` yields for the concrete scenario's span. -/
def c3rawVal : Val :=
  .vobj [("GPV1.1", .varr [.vobj
    [("date", .vstr "2025-03-30"), ("start", .vstr "2:00"), ("end", .vstr "4:00")]])]

/-- The document written for the concrete scenario (first invocation, no
prior file). -/
def c3run : Option FactDoc :=
  (runMain (some "r3") (some "in.html") (some "out.json") none (some c3html)
    .absent none idHash "2025-03-29T12:00:00.000Z").2

/-- `data.GPV1.1[0]` of the written concrete-scenario document. -/
def c3entry : Option Val :=
  (c3run.bind (·.data)).bind fun v =>
    (v.getField "GPV1.1").bind fun a =>
      match a with
      | .varr (e :: _) => some e
      | _ => none

/-- A span that is valid JSON: used for the idempotence scenario. -/
def c4html : String := "DisconSchedule.fact = \x7b\"k\":1\x7d;"

/-- First run of the idempotence scenario. -/
def c4doc1 : Option FactDoc :=
  (runMain (some "r4") (some "i4") (some "o4") none (some c4html) .absent none idHash
    "2025-01-01T00:00:00.000Z").2

/-- Second run of the idempotence scenario, over the first run's output, at a
later instant. -/
def c4doc2 : Option FactDoc :=
  match c4doc1 with
  | some d =>
    (runMain (some "r4") (some "i4") (some "o4") none (some c4html) (.doc d) none idHash
      "2025-01-01T00:05:00.000Z").2
  | none => none

/-- The document the first idempotence-scenario run writes. -/
def c4d1 : FactDoc :=
  successDoc (some "r4") none (Val.vobj [("k", Val.vnum 1)]) "\x7b\"k\":1\x7d" none idHash
    "2025-01-01T00:00:00.000Z"

/-- A schedule entry whose start/end do not match the time pattern. -/
def c7entry : Val :=
  .vobj [("date", .vstr "2025-06-10"), ("start", .vstr "all-day"), ("end", .vstr "evening")]

/-- A parsed value without a `data` field: one group key with a
non-matching entry, plus a non-group key. -/
def c7raw : Val :=
  .vobj [("GPV2.3", .varr [c7entry]), ("updated", .vstr "2025-06-09")]

/-- What normalizing `c7raw` itself would produce (the non-group key is
filtered out). -/
def c7groups : Val := .vobj [("GPV2.3", .varr [c7entry])]

/-- The meta block of the prior document below. -/
def c1priorMeta : MetaInfo :=
  { schemaVersion := some "1.0.0"
    fileCreated := some "2025-01-01T00:00:00.000Z"
    timezone := some "Europe/Kyiv"
    source := some { typ := some "proxy", upstream := some "u://x", notes := none }
    ttlSeconds := some 300
    nextScheduledFetch := none
    etag := none
    contentHash := some "f00dcafe"
    dataEmpty := some false
    dataEmptyReason := none
    rawFactIncluded := some false }

/-- The status block of the prior document below. -/
def c1priorStatus : UpdateStatus :=
  { status := "parsed", ok := true, code := some 200, message := none,
    atTime := some "2025-02-01T10:00:00.000Z", attempt := some 5 }

/-- A previously persisted document used to instantiate the failure-path
frame theorems. -/
def c1prior : FactDoc :=
  { regionId := some "kyiv"
    regionName := none
    regionType := none
    lastUpdated := some "2025-02-01T10:00:00.000Z"
    data := some (.vobj [("GPV1.1", .varr [.vobj
      [("date", .vstr "2025-02-01"), ("start", .vstr "9:00"), ("end", .vstr "11:00")]])])
    lastUpdateStatus := some c1priorStatus
    meta := some c1priorMeta }

/-- The meta block of the prior document used for the `fileCreated`
invariant. -/
def c5priorMeta : MetaInfo :=
  { schemaVersion := some "1.0.0"
    fileCreated := some "2024-11-05T08:00:00.000Z"
    timezone := some "Europe/Kyiv"
    source := none
    ttlSeconds := some 300
    nextScheduledFetch := none
    etag := none
    contentHash := some "0123"
    dataEmpty := some false
    dataEmptyReason := none
    rawFactIncluded := some false }

/-- A previously persisted document used to instantiate the `fileCreated`
invariant. -/
def c5prior : FactDoc :=
  { c1prior with regionId := some "lviv", meta := some c5priorMeta }

/-- HTML whose marker sits at index 0, with nested braces after it. -/
def c6html : String := "DisconSchedule.fact = \x7ba:\x7bb\x7d\x7d tail"

/-- A group sequence with a single entry of unrecognized shape. -/
def c9fields : List (String × Val) :=
  [("GPV4.2", Val.varr [Val.vobj [("note", Val.vstr "shape unknown")]])]

theorem braceDelta_cons (c : Char) (l : List Char) :
    braceDelta (c :: l) = charDelta c + braceDelta l := by
  simp [braceDelta]

theorem startsWithL_iff (n : List Char) : ∀ h : List Char,
    startsWithL n h = true ↔ ∃ t, h = n ++ t := by
  induction n with
  | nil => intro h; simp [startsWithL]
  | cons a as ih =>
    intro h
    cases h with
    | nil =>
      simp [startsWithL]
    | cons b bs =>
      simp only [startsWithL, Bool.and_eq_true, decide_eq_true_eq, ih, List.cons_append,
        List.cons.injEq]
      constructor
      · rintro ⟨rfl, t, rfl⟩
        exact ⟨t, rfl, rfl⟩
      · rintro ⟨t, rfl, rfl⟩
        exact ⟨rfl, t, rfl⟩

theorem idxOfAux_eq_none (needle : List Char) : ∀ (hay : List Char) (i : Nat),
    (∀ p t : List Char, hay = p ++ needle ++ t → False) → idxOfAux needle hay i = none := by
  intro hay
  induction hay with
  | nil =>
    intro i hocc
    by_cases hn : needle = []
    · exact absurd (by simp [hn] : ([] : List Char) = [] ++ needle ++ []) fun h => hocc _ _ h
    · simp [idxOfAux, hn]
  | cons c rest ih =>
    intro i hocc
    have hsw : startsWithL needle (c :: rest) = false := by
      rw [Bool.eq_false_iff]
      intro htrue
      rcases (startsWithL_iff needle (c :: rest)).1 htrue with ⟨t, ht⟩
      exact hocc [] t (by simpa using ht)
    simp only [idxOfAux, hsw, Bool.false_eq_true, if_false]
    exact ih (i + 1) fun p t hpt => hocc (c :: p) t (by simp [hpt])

theorem idxOf_eq_none (hay needle : List Char)
    (hocc : ∀ p t : List Char, hay = p ++ needle ++ t → False) : idxOf hay needle = none :=
  idxOfAux_eq_none needle hay 0 hocc

theorem idxOfAux_first (needle : List Char) : ∀ (hay pre suf : List Char) (i : Nat),
    hay = pre ++ needle ++ suf →
    (∀ p t : List Char, hay = p ++ needle ++ t → pre.length ≤ p.length) →
    idxOfAux needle hay i = some (i + pre.length) := by
  intro hay
  induction hay with
  | nil =>
    intro pre suf i heq _
    have h3 : pre = [] ∧ needle = [] ∧ suf = [] := by
      simpa [List.append_eq_nil] using heq.symm
    simp [idxOfAux, h3.1, h3.2.1]
  | cons c rest ih =>
    intro pre suf i heq hfirst
    cases pre with
    | nil =>
      have hsw : startsWithL needle (c :: rest) = true :=
        (startsWithL_iff needle (c :: rest)).2 ⟨suf, by simpa using heq⟩
      simp [idxOfAux, hsw]
    | cons p0 pre2 =>
      simp only [List.cons_append] at heq
      injection heq with h1 h2
      have hsw : startsWithL needle (c :: rest) = false := by
        rw [Bool.eq_false_iff]
        intro htrue
        rcases (startsWithL_iff needle (c :: rest)).1 htrue with ⟨t, ht⟩
        have := hfirst [] t (by simpa using ht)
        simp at this
      simp only [idxOfAux, hsw, Bool.false_eq_true, if_false]
      have hres := ih pre2 suf (i + 1) h2 (by
        intro p t hpt
        have := hfirst (c :: p) t (by simp [h1, hpt])
        simpa using this)
      rw [hres]
      simp only [Option.some.injEq, List.length_cons]
      omega

theorem idxOf_first (hay needle pre suf : List Char)
    (heq : hay = pre ++ needle ++ suf)
    (hfirst : ∀ p t : List Char, hay = p ++ needle ++ t → pre.length ≤ p.length) :
    idxOf hay needle = some pre.length := by
  have := idxOfAux_first needle hay pre suf 0 heq hfirst
  simpa [idxOf] using this

theorem scanBraces_eq_some : ∀ (cs : List Char) (d : Int) (acc : List Char) (n : Nat),
    1 ≤ d → 0 < n → n ≤ cs.length → d + braceDelta (cs.take n) = 0 →
    (∀ m : Nat, 0 < m → m < n → d + braceDelta (cs.take m) ≠ 0) →
    scanBraces d acc cs = some (acc ++ cs.take n) := by
  intro cs
  induction cs with
  | nil =>
    intro d acc n _ hn hlen _ _
    simp at hlen
    omega
  | cons c rest ih =>
    intro d acc n hd hn hlen hzero hmin
    match n, hn with
    | 1, _ =>
      rw [List.take_succ_cons, List.take_zero] at hzero ⊢
      rw [braceDelta_cons] at hzero
      simp only [braceDelta, List.map_nil, List.sum_nil, add_zero] at hzero
      by_cases hc : c = '{'
      · rw [hc] at hzero
        simp [charDelta] at hzero
        omega
      by_cases hc2 : c = '}'
      · have hd1 : d = 1 := by
          rw [hc2] at hzero
          simp [charDelta] at hzero
          omega
        simp [scanBraces, hc, hc2, hd1]
      · exfalso
        simp [charDelta, hc, hc2] at hzero
        omega
    | m + 2, _ =>
      have hm1 : d + braceDelta ((c :: rest).take 1) ≠ 0 := hmin 1 one_pos (by omega)
      rw [List.take_succ_cons, List.take_zero, braceDelta_cons] at hm1
      simp only [braceDelta, List.map_nil, List.sum_nil, add_zero] at hm1
      rw [List.take_succ_cons, braceDelta_cons] at hzero
      have hlen2 : m + 1 ≤ rest.length := by
        simp at hlen
        omega
      have hminr : ∀ k : Nat, 0 < k → k < m + 1 →
          (d + charDelta c) + braceDelta (rest.take k) ≠ 0 := by
        intro k hk hkm
        have := hmin (k + 1) (by omega) (by omega)
        rw [List.take_succ_cons, braceDelta_cons] at this
        omega
      by_cases hc : c = '{'
      · have step : scanBraces d acc (c :: rest) = scanBraces (d + 1) (acc ++ [c]) rest := by
          simp [scanBraces, hc]
        rw [step]
        have hcd : charDelta c = 1 := by simp [charDelta, hc]
        have := ih (d + 1) (acc ++ [c]) (m + 1) (by omega) (by omega) hlen2
          (by rw [hcd] at hzero; omega)
          (by intro k hk hkm; have := hminr k hk hkm; rw [hcd] at this; omega)
        rw [this, List.take_succ_cons, List.append_assoc]
        simp
      by_cases hc2 : c = '}'
      · have hcd : charDelta c = -1 := by simp [charDelta, hc, hc2]
        have hd2 : d - 1 ≠ 0 := by rw [hcd] at hm1; omega
        have step : scanBraces d acc (c :: rest) = scanBraces (d - 1) (acc ++ [c]) rest := by
          simp [scanBraces, hc, hc2, hd2]
        rw [step]
        have := ih (d - 1) (acc ++ [c]) (m + 1) (by omega) (by omega) hlen2
          (by rw [hcd] at hzero; omega)
          (by intro k hk hkm; have := hminr k hk hkm; rw [hcd] at this; omega)
        rw [this, List.take_succ_cons, List.append_assoc]
        simp
      · have hcd : charDelta c = 0 := by simp [charDelta, hc, hc2]
        have step : scanBraces d acc (c :: rest) = scanBraces d (acc ++ [c]) rest := by
          simp [scanBraces, hc, hc2]
        rw [step]
        have := ih d (acc ++ [c]) (m + 1) hd (by omega) hlen2
          (by rw [hcd] at hzero; omega)
          (by intro k hk hkm; have := hminr k hk hkm; rw [hcd] at this; omega)
        rw [this, List.take_succ_cons, List.append_assoc]
        simp

theorem scanBraces_eq_none : ∀ (cs : List Char) (d : Int) (acc : List Char),
    1 ≤ d →
    (∀ n : Nat, 0 < n → n ≤ cs.length → d + braceDelta (cs.take n) ≠ 0) →
    scanBraces d acc cs = none := by
  intro cs
  induction cs with
  | nil => intro d acc _ _; simp [scanBraces]
  | cons c rest ih =>
    intro d acc hd hminr
    have hm1 : d + charDelta c ≠ 0 := by
      have := hminr 1 one_pos (by simp)
      rw [List.take_succ_cons, List.take_zero, braceDelta_cons] at this
      simpa [braceDelta] using this
    have htrans : ∀ k : Nat, 0 < k → k ≤ rest.length →
        (d + charDelta c) + braceDelta (rest.take k) ≠ 0 := by
      intro k hk hkl
      have := hminr (k + 1) (by omega) (by simp; omega)
      rw [List.take_succ_cons, braceDelta_cons] at this
      omega
    by_cases hc : c = '{'
    · have hcd : charDelta c = 1 := by simp [charDelta, hc]
      have step : scanBraces d acc (c :: rest) = scanBraces (d + 1) (acc ++ [c]) rest := by
        simp [scanBraces, hc]
      rw [step]
      exact ih (d + 1) (acc ++ [c]) (by omega)
        (by intro k hk hkl; have := htrans k hk hkl; rw [hcd] at this; omega)
    by_cases hc2 : c = '}'
    · have hcd : charDelta c = -1 := by simp [charDelta, hc, hc2]
      have hd2 : d - 1 ≠ 0 := by rw [hcd] at hm1; omega
      have step : scanBraces d acc (c :: rest) = scanBraces (d - 1) (acc ++ [c]) rest := by
        simp [scanBraces, hc, hc2, hd2]
      rw [step]
      exact ih (d - 1) (acc ++ [c]) (by omega)
        (by intro k hk hkl; have := htrans k hk hkl; rw [hcd] at this; omega)
    · have hcd : charDelta c = 0 := by simp [charDelta, hc, hc2]
      have step : scanBraces d acc (c :: rest) = scanBraces d (acc ++ [c]) rest := by
        simp [scanBraces, hc, hc2]
      rw [step]
      exact ih d (acc ++ [c]) hd
        (by intro k hk hkl; have := htrans k hk hkl; rw [hcd] at this; omega)

/-- C6: the Literal Locator's contract.  For every HTML input: if the marker
token does not occur, extraction fails with the marker-not-found error; if
the first non-whitespace character after the first marker occurrence is not
an opening brace (or the input ends), it fails with the unexpected-token
error; otherwise the scanner — counting every brace, quoted or not — returns
exactly the substring from the opening brace to the first position where the
brace depth returns to zero, inclusive, and fails with the unbalanced-braces
error when no such position exists before end of input. -/
theorem c6_locator_contract (html : String) :
    ((¬ ∃ pre suf : List Char, html.toList = pre ++ marker ++ suf) →
      extractFact html = .error "Marker \x60DisconSchedule.fact =\x60 not found") ∧
    (∀ pre suf : List Char, html.toList = pre ++ marker ++ suf →
      (∀ pre' suf' : List Char, html.toList = pre' ++ marker ++ suf' →
        pre.length ≤ pre'.length) →
      (((suf.dropWhile isJsWs).head? ≠ some '{' →
        extractFact html =
          .error "Expected \x60\x7b\x60 after \x60DisconSchedule.fact =\x60") ∧
      ((suf.dropWhile isJsWs).head? = some '{' →
        (∀ n : Nat, 0 < n → n ≤ (suf.dropWhile isJsWs).length →
          braceDelta ((suf.dropWhile isJsWs).take n) ≠ 0) →
        extractFact html = .error "Unbalanced braces while extracting fact object") ∧
      (∀ n : Nat, (suf.dropWhile isJsWs).head? = some '{' → 0 < n →
        n ≤ (suf.dropWhile isJsWs).length →
        braceDelta ((suf.dropWhile isJsWs).take n) = 0 →
        (∀ m : Nat, 0 < m → m < n → braceDelta ((suf.dropWhile isJsWs).take m) ≠ 0) →
        extractFact html = .ok
          ⟨String.mk ((suf.dropWhile isJsWs).take n),
           pre.length + marker.length + (suf.length - (suf.dropWhile isJsWs).length),
           pre.length + marker.length + (suf.length - (suf.dropWhile isJsWs).length) + n⟩))) := by
  constructor
  · intro hno
    have hidx : idxOf html.data marker = none :=
      idxOf_eq_none _ _ fun p t hpt => hno ⟨p, t, hpt⟩
    simp [extractFact, hidx]
  · intro pre suf heq hfirst
    have hidx : idxOf html.toList marker = some pre.length :=
      idxOf_first _ _ _ _ heq hfirst
    have hdrop : html.toList.drop (pre.length + marker.length) = suf := by
      have h2 : html.toList = (pre ++ marker) ++ suf := by rw [heq, List.append_assoc]
      rw [h2, ← List.length_append]
      exact List.drop_left _ _
    have hunfold : extractFact html =
        (if (suf.dropWhile isJsWs).head? = some '{' then
          match scanBraces 0 [] (suf.dropWhile isJsWs) with
          | some span => .ok ⟨String.mk span,
              pre.length + marker.length + (suf.length - (suf.dropWhile isJsWs).length),
              pre.length + marker.length + (suf.length - (suf.dropWhile isJsWs).length)
                + span.length⟩
          | none => .error "Unbalanced braces while extracting fact object"
        else .error "Expected \x60\x7b\x60 after \x60DisconSchedule.fact =\x60") := by
      simp only [extractFact, hidx, hdrop]
    refine ⟨?_, ?_, ?_⟩
    · intro hhead
      rw [hunfold, if_neg hhead]
    · intro hhead hno
      cases hrest : suf.dropWhile isJsWs with
      | nil => rw [hrest] at hhead; exact absurd hhead (by simp)
      | cons c t =>
        rw [hrest] at hhead
        have hc : c = '{' := by simpa using hhead
        subst hc
        have hscan : scanBraces 0 [] ('{' :: t) = scanBraces 1 ['{'] t := by
          simp [scanBraces]
        have hnone : scanBraces 1 ['{'] t = none := by
          apply scanBraces_eq_none t 1 ['{'] le_rfl
          intro k hk hkl
          have hnk := hno (k + 1) (by omega) (by rw [hrest]; simp; omega)
          rw [hrest, List.take_succ_cons, braceDelta_cons] at hnk
          have hcd : charDelta '{' = 1 := by simp [charDelta]
          rw [hcd] at hnk
          omega
        rw [hunfold, hrest, if_pos hhead, hscan, hnone]
    · intro n hhead hn hnlen hzero hmin
      cases hrest : suf.dropWhile isJsWs with
      | nil => rw [hrest] at hhead; exact absurd hhead (by simp)
      | cons c t =>
        rw [hrest] at hhead
        have hc : c = '{' := by simpa using hhead
        subst hc
        rw [hrest] at hnlen hzero hmin
        have hn2 : 2 ≤ n := by
          by_contra h2
          have hn1 : n = 1 := by omega
          subst hn1
          rw [List.take_succ_cons, List.take_zero, braceDelta_cons] at hzero
          simp [charDelta, braceDelta] at hzero
        have hscan : scanBraces 0 [] ('{' :: t) = scanBraces 1 ['{'] t := by
          simp [scanBraces]
        have hcd : charDelta '{' = 1 := by simp [charDelta]
        obtain ⟨n', rfl⟩ : ∃ n', n = n' + 1 := ⟨n - 1, by omega⟩
        have hsome : scanBraces 1 ['{'] t = some (['{'] ++ t.take n') := by
          apply scanBraces_eq_some t 1 ['{'] n' le_rfl (by omega)
          · simp at hnlen
            omega
          · rw [List.take_succ_cons, braceDelta_cons, hcd] at hzero
            omega
          · intro m hm hmn
            have hmn2 := hmin (m + 1) (by omega) (by omega)
            rw [List.take_succ_cons, braceDelta_cons, hcd] at hmn2
            omega
        have hspan : (['{'] ++ t.take n') = ('{' :: t).take (n' + 1) := by
          simp [List.take_succ_cons]
        have hlenspan : (('{' :: t).take (n' + 1)).length = n' + 1 := by
          rw [List.length_take]
          simp at hnlen ⊢
          omega
        rw [hunfold, hrest, if_pos hhead, hscan, hsome, hspan]
        simp only [hlenspan]

/-- Witness for C6: the contract applied to a concrete page whose marker sits
at index 0, with nested braces in the span. -/
theorem c6_locator_contract_witness :
    extractFact c6html = Except.ok
      { jsonLike := "\x7ba:\x7bb\x7d\x7d", startIndex := 22, endIndex := 29 } :=
  ((c6_locator_contract c6html).2 [] " \x7ba:\x7bb\x7d\x7d tail".toList (by decide)
      (fun _ _ _ => Nat.zero_le _)).2.2 7 (by decide) (by decide) (by decide) (by decide)
    (by intro m hm hm7; interval_cases m <;> decide)

theorem updateStatusOnError_eq (p : FactDoc) (pm : MetaInfo) (hm : p.meta = some pm)
    (regionId upstream : Option String) (code : Int) (message now : String)
    (template : Option FactDoc) :
    updateStatusOnError (some p) regionId upstream code message now template =
    { p with
      lastUpdateStatus := some
        { status := "error", ok := false, code := some code, message := some message,
          atTime := some now, attempt := some (prevAttemptOf (some p) + 1) }
      meta := some (errMeta pm upstream now) } := by
  obtain ⟨rid, rnm, rty, lu, da, st, mt⟩ := p
  cases mt with
  | none => cases hm
  | some m2 =>
    injection hm with hmm
    subst hmm
    simp [updateStatusOnError, prevAttemptOf]

theorem updateStatusOnError_statusFields (existing : Option FactDoc)
    (regionId upstream : Option String) (code : Int) (message now : String)
    (template : Option FactDoc) :
    (updateStatusOnError existing regionId upstream code message now template).statusOf
        = some "error" ∧
    (updateStatusOnError existing regionId upstream code message now template).okOf
        = some false ∧
    (updateStatusOnError existing regionId upstream code message now template).statusCode
        = some code := by
  cases existing with
  | none =>
    unfold updateStatusOnError
    cases hmeta : (loadTemplateBase template regionId upstream now).meta <;>
      simp [FactDoc.statusOf, FactDoc.okOf, FactDoc.statusCode, hmeta]
  | some p =>
    unfold updateStatusOnError
    cases hmeta : p.meta <;>
      simp [FactDoc.statusOf, FactDoc.okOf, FactDoc.statusCode, hmeta]

theorem successDoc_eq (region upstream : Option String) (v : Val) (jsonLike : String)
    (existing : Option FactDoc) (hash : String → String) (now : String) :
    successDoc region upstream v jsonLike existing hash now =
    { regionId := region
      regionName := none
      regionType := none
      lastUpdated := some now
      data := some (normBranch v).1
      lastUpdateStatus := some
        { status := "parsed", ok := true, code := some 200, message := none,
          atTime := some now, attempt := some (prevAttemptOf existing + 1) }
      meta := some
        { schemaVersion := some "1.0.0"
          fileCreated := carriedFileCreated existing now
          timezone := some "Europe/Kyiv"
          source := some
            { typ := some "proxy"
              upstream := upstream
              notes := some "Extracted from DisconSchedule.fact in upstream HTML" }
          ttlSeconds := some 300
          nextScheduledFetch := none
          etag := none
          contentHash := some (hash jsonLike)
          dataEmpty := some (jsDataEmpty (some (normBranch v).1))
          dataEmptyReason := finalReason v
          rawFactIncluded := some (v.getField "data").isNone } } := by
  by_cases hcond : (jsDataEmpty (some (normBranch v).1) && ((normBranch v).2).isNone) = true
  · have hB2 : (normBranch v).2 = none :=
      Option.isNone_iff_eq_none.mp ((Bool.and_eq_true _ _).mp hcond).2
    have hA : jsDataEmpty (some (normBranch v).1) = true := ((Bool.and_eq_true _ _).mp hcond).1
    cases existing with
    | none =>
      simp [successDoc, normalizeFact, prevAttemptOf, carriedFileCreated, finalReason,
        hcond, hB2, hA]
    | some ex =>
      obtain ⟨rid, rnm, rty, lu, da, st, mt⟩ := ex
      cases mt with
      | none =>
        simp [successDoc, normalizeFact, prevAttemptOf, carriedFileCreated, finalReason,
          hcond, hB2, hA]
      | some exm =>
        simp [successDoc, normalizeFact, prevAttemptOf, carriedFileCreated, finalReason,
          hcond, hB2, hA]
  · cases existing with
    | none =>
      simp [successDoc, normalizeFact, prevAttemptOf, carriedFileCreated, finalReason, hcond]
      intro ha hb
      exact absurd (by rw [hb]; simp [ha]) hcond
    | some ex =>
      obtain ⟨rid, rnm, rty, lu, da, st, mt⟩ := ex
      cases mt with
      | none =>
        simp [successDoc, normalizeFact, prevAttemptOf, carriedFileCreated, finalReason, hcond]
        intro ha hb
        exact absurd (by rw [hb]; simp [ha]) hcond
      | some exm =>
        simp [successDoc, normalizeFact, prevAttemptOf, carriedFileCreated, finalReason, hcond]
        intro ha hb
        exact absurd (by rw [hb]; simp [ha]) hcond

theorem errMeta_preserves (pm : MetaInfo) (ups : Option String) (now : String) :
    (errMeta pm ups now).contentHash = pm.contentHash ∧
    (errMeta pm ups now).dataEmpty = pm.dataEmpty ∧
    (errMeta pm ups now).dataEmptyReason = pm.dataEmptyReason ∧
    errMeta pm ups now = { pm with fileCreated := (errMeta pm ups now).fileCreated, source := (errMeta pm ups now).source } := by
  obtain ⟨a1, fc, a3, src, a5, a6, a7, a8, a9, a10, a11⟩ := pm
  cases fc <;> cases ups <;> simp [errMeta]

theorem errMeta_fileCreated (pm : MetaInfo) (ups : Option String) (now f : String)
    (h : pm.fileCreated = some f) : (errMeta pm ups now).fileCreated = some f := by
  obtain ⟨a1, fc, a3, src, a5, a6, a7, a8, a9, a10, a11⟩ := pm
  simp only at h
  subst h
  cases ups <;> simp [errMeta]

theorem errPathFrame (p : FactDoc) (pm : MetaInfo) (pst : UpdateStatus) (n : Int)
    (hmeta : p.meta = some pm) (hst : p.lastUpdateStatus = some pst)
    (hatt : pst.attempt = some n) (regionId ups : Option String) (code : Int)
    (msg now : String) (template : Option FactDoc) :
    (updateStatusOnError (some p) regionId ups code msg now template).data = p.data ∧
    (updateStatusOnError (some p) regionId ups code msg now template).lastUpdated
      = p.lastUpdated ∧
    (updateStatusOnError (some p) regionId ups code msg now template).contentHashOf
      = pm.contentHash ∧
    (updateStatusOnError (some p) regionId ups code msg now template).statusOf
      = some "error" ∧
    (updateStatusOnError (some p) regionId ups code msg now template).okOf = some false ∧
    (updateStatusOnError (some p) regionId ups code msg now template).statusCode
      = some code ∧
    (updateStatusOnError (some p) regionId ups code msg now template).attemptOf
      = some (n + 1) ∧
    (updateStatusOnError (some p) regionId ups code msg now template).regionId
      = p.regionId ∧
    (updateStatusOnError (some p) regionId ups code msg now template).regionName
      = p.regionName ∧
    (updateStatusOnError (some p) regionId ups code msg now template).regionType
      = p.regionType ∧
    (∃ m : MetaInfo,
      (updateStatusOnError (some p) regionId ups code msg now template).meta = some m ∧
      m = { pm with fileCreated := m.fileCreated, source := m.source }) := by
  have hprev : prevAttemptOf (some p) = n := by simp [prevAttemptOf, hst, hatt]
  rw [updateStatusOnError_eq p pm hmeta regionId ups code msg now template, hprev]
  refine ⟨rfl, rfl, ?_, rfl, rfl, rfl, rfl, rfl, rfl, rfl,
    ⟨errMeta pm ups now, rfl, (errMeta_preserves pm ups now).2.2.2⟩⟩
  simp [FactDoc.contentHashOf, (errMeta_preserves pm ups now).1]

/-- C1: on every invocation in which a processing stage fails — missing
input, any extraction failure (marker/token/braces), or a structural parse
failure — with a prior document present, the written document keeps the
prior `data`, `lastUpdated` and `meta.contentHash` unchanged, carries
`lastUpdateStatus.status = "error"` with `ok = false` and `attempt` equal to
the prior attempt plus one, and differs from the prior document only in
`lastUpdateStatus` and the non-data meta fields (`fileCreated`/`source`). -/
theorem c1_failure_frame (r i o : String) (ups : Option String)
    (inputFile : Option String) (p : FactDoc) (pm : MetaInfo) (pst : UpdateStatus)
    (n : Int) (template : Option FactDoc) (hash : String → String) (now : String)
    (hmeta : p.meta = some pm) (hst : p.lastUpdateStatus = some pst)
    (hatt : pst.attempt = some n)
    (hfail : inputFile = none ∨
      (∃ html e, inputFile = some html ∧ extractFact html = Except.error e) ∨
      (∃ html ext e, inputFile = some html ∧ extractFact html = Except.ok ext ∧
        tryParseObject ext.jsonLike = Except.error e)) :
    ∃ d : FactDoc,
      runMain (some r) (some i) (some o) ups inputFile (.doc p) template hash now
        = (0, some d) ∧
      d.data = p.data ∧
      d.lastUpdated = p.lastUpdated ∧
      d.contentHashOf = pm.contentHash ∧
      d.statusOf = some "error" ∧
      d.okOf = some false ∧
      d.attemptOf = some (n + 1) ∧
      d.regionId = p.regionId ∧ d.regionName = p.regionName ∧ d.regionType = p.regionType ∧
      (∃ m : MetaInfo, d.meta = some m ∧
        m = { pm with fileCreated := m.fileCreated, source := m.source }) := by
  rcases hfail with rfl | ⟨html, e, rfl, hext⟩ | ⟨html, ext, e, rfl, hext, hparse⟩
  · refine ⟨updateStatusOnError (some p) (some r) ups 404
      ("Input not found: " ++ i) now template, ?_, ?_⟩
    · simp [runMain, loadExisting]
    · rcases errPathFrame p pm pst n hmeta hst hatt (some r) ups 404
        ("Input not found: " ++ i) now template with
        ⟨h1, h2, h3, h4, h5, h6, h7, h8, h9, h10, h11⟩
      exact ⟨h1, h2, h3, h4, h5, h7, h8, h9, h10, h11⟩
  · refine ⟨updateStatusOnError (some p) (some r) ups 422
      (e ++ " in " ++ i) now template, ?_, ?_⟩
    · simp [runMain, loadExisting, hext]
    · rcases errPathFrame p pm pst n hmeta hst hatt (some r) ups 422
        (e ++ " in " ++ i) now template with
        ⟨h1, h2, h3, h4, h5, h6, h7, h8, h9, h10, h11⟩
      exact ⟨h1, h2, h3, h4, h5, h7, h8, h9, h10, h11⟩
  · refine ⟨updateStatusOnError (some p) (some r) ups 422
      (e ++ " in " ++ i) now template, ?_, ?_⟩
    · simp [runMain, loadExisting, hext, hparse]
    · rcases errPathFrame p pm pst n hmeta hst hatt (some r) ups 422
        (e ++ " in " ++ i) now template with
        ⟨h1, h2, h3, h4, h5, h6, h7, h8, h9, h10, h11⟩
      exact ⟨h1, h2, h3, h4, h5, h7, h8, h9, h10, h11⟩

/-- Witness for C1: the frame theorem applied to a concrete prior document
and an input whose marker is absent. -/
theorem c1_failure_frame_witness :
    ∃ d : FactDoc,
      runMain (some "kyiv") (some "in.html") (some "out.json") none
        (some "<p>no schedule today</p>") (.doc c1prior) none idHash
        "2025-02-02T10:00:00.000Z" = (0, some d) ∧
      d.data = c1prior.data ∧
      d.lastUpdated = c1prior.lastUpdated ∧
      d.contentHashOf = c1priorMeta.contentHash ∧
      d.statusOf = some "error" ∧
      d.okOf = some false ∧
      d.attemptOf = some (5 + 1) ∧
      d.regionId = c1prior.regionId ∧ d.regionName = c1prior.regionName ∧
      d.regionType = c1prior.regionType ∧
      (∃ m : MetaInfo, d.meta = some m ∧
        m = { c1priorMeta with fileCreated := m.fileCreated, source := m.source }) :=
  c1_failure_frame "kyiv" "in.html" "out.json" none (some "<p>no schedule today</p>")
    c1prior c1priorMeta c1priorStatus 5 none idHash "2025-02-02T10:00:00.000Z"
    rfl rfl rfl
    (Or.inr (Or.inl ⟨"<p>no schedule today</p>",
      "Marker \x60DisconSchedule.fact =\x60 not found", rfl, rfl⟩))

/-- C2: the claim is that the fallback after strict JSON accepts only
literals and never evaluates expressions.  The code instead hands the span
to the JavaScript `Function` evaluator: on the span `\x7b"a": 1+2\x7d` —
which strict JSON rejects and which contains a non-literal expression, so
the claimed parser must reject it with a StructuralParseError — the engine
returns the value `\x7ba: 3\x7d` *computed by evaluating* the expression,
tagged with the `eval` method. -/
theorem c2_fallback_evaluates :
    jsonParse "\x7b\"a\": 1+2\x7d" = none ∧
    tryParseObject "\x7b\"a\": 1+2\x7d"
      = Except.ok (Val.vobj [("a", Val.vnum 3)], "eval") :=
  ⟨rfl, rfl⟩

/-- Counterexample to C3: on the spec's concrete scenario input the written
document's `data.GPV1.1[0]` is the raw entry — still carrying `start`, with
no `startLocal` at all — and is not the normalized entry the claim
specifies. -/
theorem c3_counterexample :
    c3entry = some (Val.vobj [("date", Val.vstr "2025-03-30"), ("start", Val.vstr "2:00"),
      ("end", Val.vstr "4:00")]) ∧
    c3entry.bind (fun v => v.getField "startLocal") = none ∧
    c3entry ≠ some (Val.vobj [("date", Val.vstr "2025-03-30"),
      ("startLocal", Val.vstr "2025-03-30T02:00:00+02:00"),
      ("endLocal", Val.vstr "2025-03-30T04:00:00+02:00")]) := by
  refine ⟨rfl, rfl, fun h => ?_⟩
  have h2 := congrArg (fun o => Option.bind o (fun v => Val.getField v "startLocal")) h
  exact Option.noConfusion h2

/-- C3 as amended: because the parsed scenario object has no `data` field,
the engine stores the whole parsed value verbatim — `data.GPV1.1[0]` keeps
its original `date`/`start`/`end` fields, no timestamp conversion happens —
and records `dataEmptyReason = "no-data-field-present"` in a successful
(code 200) document. -/
theorem c3_amended_behavior :
    c3run.bind (fun d => d.data) = some c3rawVal ∧
    c3run.bind FactDoc.dataEmptyReasonOf = some "no-data-field-present" ∧
    c3run.bind FactDoc.statusCode = some 200 ∧
    c3run.bind FactDoc.okOf = some true :=
  ⟨rfl, rfl, rfl, rfl⟩

theorem carriedFileCreated_isSome (existing : Option FactDoc) (now : String) :
    ∃ f, carriedFileCreated existing now = some f := by
  cases existing with
  | none => exact ⟨now, rfl⟩
  | some ex =>
    cases hm : ex.meta with
    | none => exact ⟨now, by simp [carriedFileCreated, hm]⟩
    | some exm =>
      cases hf : exm.fileCreated with
      | none => exact ⟨now, by simp [carriedFileCreated, hm, hf]⟩
      | some f => exact ⟨f, by simp [carriedFileCreated, hm, hf]⟩

theorem carriedFileCreated_some (ex : FactDoc) (m : MetaInfo) (f now : String)
    (hm : ex.meta = some m) (hf : m.fileCreated = some f) :
    carriedFileCreated (some ex) now = some f := by
  simp [carriedFileCreated, hm, hf]

theorem successDoc_fileCreatedOf (region ups : Option String) (v : Val) (j : String)
    (existing : Option FactDoc) (hash : String → String) (now : String) :
    (successDoc region ups v j existing hash now).fileCreatedOf
      = carriedFileCreated existing now := by
  rw [successDoc_eq]
  rfl

/-- Counterexample to C4: running the engine twice on the same HTML at two
instants keeps `contentHash`/`data` and increments `attempt`, but
`lastUpdated` is rewritten to the second run's instant rather than staying
at the first run's value. -/
theorem c4_counterexample :
    c4doc1.bind (fun d => d.lastUpdated) = some "2025-01-01T00:00:00.000Z" ∧
    c4doc1.bind FactDoc.okOf = some true ∧
    c4doc2.bind (fun d => d.lastUpdated) = some "2025-01-01T00:05:00.000Z" ∧
    c4doc2.bind FactDoc.contentHashOf = c4doc1.bind FactDoc.contentHashOf ∧
    c4doc2.bind FactDoc.attemptOf = some 2 ∧
    (some "2025-01-01T00:05:00.000Z" : Option String) ≠ some "2025-01-01T00:00:00.000Z" :=
  ⟨rfl, rfl, rfl, rfl, rfl, by decide⟩

/-- C4 as amended: a second run on unchanged HTML over the first run's
output preserves `contentHash`, `data` and `meta.fileCreated` and increments
`attempt` by exactly one, but sets `lastUpdated` to the second run's
instant (the code stamps every successful parse). -/
theorem c4_idempotence_amended (r i o : String) (ups : Option String) (html : String)
    (prior : PriorFile) (template : Option FactDoc) (hash : String → String)
    (now1 now2 : String) (ext : Extraction) (pv : Val × String) (d1 : FactDoc)
    (hext : extractFact html = Except.ok ext)
    (hparse : tryParseObject ext.jsonLike = Except.ok pv)
    (h1 : runMain (some r) (some i) (some o) ups (some html) prior template hash now1
      = (0, some d1)) :
    ∃ d2 : FactDoc,
      runMain (some r) (some i) (some o) ups (some html) (.doc d1) template hash now2
        = (0, some d2) ∧
      d2.contentHashOf = d1.contentHashOf ∧
      d2.data = d1.data ∧
      d2.fileCreatedOf = d1.fileCreatedOf ∧
      (∃ a : Int, d1.attemptOf = some a ∧ d2.attemptOf = some (a + 1)) ∧
      d2.lastUpdated = some now2 := by
  have hd1 : d1 = successDoc (some r) ups pv.1 ext.jsonLike (loadExisting prior) hash now1 := by
    simp [runMain, hext, hparse] at h1
    exact h1.symm
  subst hd1
  obtain ⟨f, hf⟩ := carriedFileCreated_isSome (loadExisting prior) now1
  refine ⟨successDoc (some r) ups pv.1 ext.jsonLike
      (some (successDoc (some r) ups pv.1 ext.jsonLike (loadExisting prior) hash now1))
      hash now2,
    by simp [runMain, hext, hparse, loadExisting], ?_, ?_, ?_, ?_, ?_⟩
  · simp [successDoc_eq, FactDoc.contentHashOf]
  · simp [successDoc_eq]
  · rw [successDoc_fileCreatedOf, successDoc_fileCreatedOf, hf]
    exact carriedFileCreated_some _ _ f now2 (by rw [successDoc_eq]) hf
  · exact ⟨prevAttemptOf (loadExisting prior) + 1,
      by simp [successDoc_eq, FactDoc.attemptOf],
      by simp [successDoc_eq, FactDoc.attemptOf, prevAttemptOf]⟩
  · simp [successDoc_eq]

/-- Witness for the amended C4, at the concrete idempotence scenario. -/
theorem c4_idempotence_amended_witness :
    ∃ d2 : FactDoc,
      runMain (some "r4") (some "i4") (some "o4") none (some c4html) (.doc c4d1) none idHash
        "2025-01-01T00:05:00.000Z" = (0, some d2) ∧
      d2.contentHashOf = c4d1.contentHashOf ∧
      d2.data = c4d1.data ∧
      d2.fileCreatedOf = c4d1.fileCreatedOf ∧
      (∃ a : Int, c4d1.attemptOf = some a ∧ d2.attemptOf = some (a + 1)) ∧
      d2.lastUpdated = some "2025-01-01T00:05:00.000Z" :=
  c4_idempotence_amended "r4" "i4" "o4" none c4html .absent none idHash
    "2025-01-01T00:00:00.000Z" "2025-01-01T00:05:00.000Z"
    ⟨"\x7b\"k\":1\x7d", 22, 29⟩ (Val.vobj [("k", Val.vnum 1)], "json") c4d1 rfl rfl rfl

theorem moduleEntry_written (r i o : String) (ups : Option String)
    (inputFile : Option String) (prior : PriorFile) (template : Option FactDoc)
    (hash : String → String) (now : String) (crash : Option String) (ec : Int)
    (d : FactDoc)
    (h : moduleEntry (some r) (some i) (some o) ups inputFile prior template hash now crash
      = (ec, some d)) :
    (∃ code msg, d = updateStatusOnError (loadExisting prior) (some r) ups code msg now
      template) ∨
    (∃ v j, d = successDoc (some r) ups v j (loadExisting prior) hash now) := by
  cases crash with
  | some msg =>
    simp only [moduleEntry] at h
    injection h with h1 h2
    injection h2 with h3
    exact Or.inl ⟨500, "parse_fact crashed: " ++ msg, h3.symm⟩
  | none =>
    cases inputFile with
    | none =>
      simp only [moduleEntry, runMain, Option.isNone_some, Bool.or_self, Bool.or_false,
        Bool.false_or, if_false] at h
      injection h with h1 h2
      injection h2 with h3
      exact Or.inl ⟨404, "Input not found: " ++ i, h3.symm⟩
    | some html =>
      cases hext : extractFact html with
      | error e =>
        simp only [moduleEntry, runMain, Option.isNone_some, Bool.or_self, Bool.or_false,
          Bool.false_or, if_false, hext] at h
        injection h with h1 h2
        injection h2 with h3
        exact Or.inl ⟨422, e ++ " in " ++ i, h3.symm⟩
      | ok ext =>
        cases hp : tryParseObject ext.jsonLike with
        | error e =>
          simp only [moduleEntry, runMain, Option.isNone_some, Bool.or_self, Bool.or_false,
            Bool.false_or, if_false, hext, hp] at h
          injection h with h1 h2
          injection h2 with h3
          exact Or.inl ⟨422, e ++ " in " ++ i, h3.symm⟩
        | ok pv =>
          simp only [moduleEntry, runMain, Option.isNone_some, Bool.or_self, Bool.or_false,
            Bool.false_or, if_false, hext, hp] at h
          injection h with h1 h2
          injection h2 with h3
          exact Or.inr ⟨pv.1, ext.jsonLike, h3.symm⟩

theorem loadTemplateBase_none_fileCreated (region ups : Option String) (now : String) :
    ∃ m : MetaInfo, (loadTemplateBase none region ups now).meta = some m ∧
      m.fileCreated = some now := by
  cases region <;> cases ups <;> exact ⟨_, rfl, rfl⟩

theorem updateStatusOnError_none_fileCreated (region ups : Option String) (code : Int)
    (msg now : String) :
    (updateStatusOnError none region ups code msg now none).fileCreatedOf = some now := by
  obtain ⟨m, hm, hfcm⟩ := loadTemplateBase_none_fileCreated region ups now
  simp only [updateStatusOnError, hm]
  simp [FactDoc.fileCreatedOf, errMeta_fileCreated m ups now now hfcm]

/-- C5: `meta.fileCreated` is written once and then carried forward.  For a
prior document carrying `fileCreated = fc`, every invocation — successful,
failing at any stage, or crashing — that writes a document writes
`fileCreated = fc`; and with no prior document (and no external template
file) the written document's `fileCreated` is the invocation's own
instant. -/
theorem c5_fileCreated_invariant (r i o : String) (ups : Option String)
    (inputFile : Option String) (template : Option FactDoc) (hash : String → String)
    (now : String) (crash : Option String) (p : FactDoc) (pm : MetaInfo) (fc : String)
    (hmeta : p.meta = some pm) (hfc : pm.fileCreated = some fc) :
    (∀ (ec : Int) (d : FactDoc),
      moduleEntry (some r) (some i) (some o) ups inputFile (.doc p) template hash now crash
        = (ec, some d) → d.fileCreatedOf = some fc) ∧
    (∀ (ec : Int) (d : FactDoc),
      moduleEntry (some r) (some i) (some o) ups inputFile .absent none hash now crash
        = (ec, some d) → d.fileCreatedOf = some now) := by
  constructor
  · intro ec d h
    rcases moduleEntry_written r i o ups inputFile (.doc p) template hash now crash ec d h
      with ⟨code, msg, rfl⟩ | ⟨v, j, rfl⟩
    · rw [show loadExisting (.doc p) = some p from rfl,
        updateStatusOnError_eq p pm hmeta (some r) ups code msg now template]
      simp [FactDoc.fileCreatedOf, errMeta_fileCreated pm ups now fc hfc]
    · rw [show loadExisting (.doc p) = some p from rfl, successDoc_fileCreatedOf]
      exact carriedFileCreated_some p pm fc now hmeta hfc
  · intro ec d h
    rcases moduleEntry_written r i o ups inputFile .absent none hash now crash ec d h
      with ⟨code, msg, rfl⟩ | ⟨v, j, rfl⟩
    · rw [show loadExisting .absent = none from rfl]
      exact updateStatusOnError_none_fileCreated (some r) ups code msg now
    · rw [show loadExisting .absent = none from rfl, successDoc_fileCreatedOf]
      rfl

/-- Witness for C5: the invariant applied to a concrete prior document, a
crashing invocation (the catch-all 500 path). -/
theorem c5_fileCreated_invariant_witness :
    (∀ (ec : Int) (d : FactDoc),
      moduleEntry (some "lviv") (some "i5") (some "o5") (some "u://y") none (.doc c5prior)
        none idHash "2025-03-01T00:00:00.000Z" (some "boom") = (ec, some d) →
      d.fileCreatedOf = some "2024-11-05T08:00:00.000Z") ∧
    (∀ (ec : Int) (d : FactDoc),
      moduleEntry (some "lviv") (some "i5") (some "o5") (some "u://y") none .absent
        none idHash "2025-03-01T00:00:00.000Z" (some "boom") = (ec, some d) →
      d.fileCreatedOf = some "2025-03-01T00:00:00.000Z") :=
  c5_fileCreated_invariant "lviv" "i5" "o5" (some "u://y") none none idHash
    "2025-03-01T00:00:00.000Z" (some "boom") c5prior c5priorMeta
    "2024-11-05T08:00:00.000Z" rfl rfl

/-- Counterexample to C7: a parsed value without a `data` field is stored
verbatim — its non-group key `updated` survives into `data`, which it could
not if the claimed group filtering/normalization had been applied (shown by
`extractGroupsWithIso` on the same value dropping that key). -/
theorem c7_counterexample :
    (normalizeFact (some "rg") none c7raw "2025-06-10T12:00:00.000Z").data = some c7raw ∧
    (normalizeFact (some "rg") none c7raw "2025-06-10T12:00:00.000Z").dataEmptyReasonOf
      = some "no-data-field-present" ∧
    extractGroupsWithIso c7raw = some c7groups ∧
    c7raw.getField "updated" = some (Val.vstr "2025-06-09") ∧
    c7groups.getField "updated" = none ∧
    (normalizeFact (some "rg") none c7raw "2025-06-10T12:00:00.000Z").data
      ≠ some c7groups := by
  refine ⟨rfl, rfl, rfl, rfl, rfl, fun h => ?_⟩
  have h2 := congrArg (fun o => Option.bind o (fun v => Val.getField v "updated")) h
  exact Option.noConfusion h2

/-- C7 as amended: for every parsed value without a `data` field the engine
stores the whole value verbatim under `data` (no group filtering, no
timestamp conversion), records `dataEmptyReason = "no-data-field-present"`,
and marks `rawFactIncluded = true`. -/
theorem c7_no_data_field_amended (rawObj : Val) (region ups : Option String)
    (now : String) (h : rawObj.getField "data" = none) :
    (normalizeFact region ups rawObj now).data = some rawObj ∧
    (normalizeFact region ups rawObj now).dataEmptyReasonOf
      = some "no-data-field-present" ∧
    (normalizeFact region ups rawObj now).meta.bind (fun m => m.rawFactIncluded)
      = some true := by
  simp [normalizeFact, normBranch, h, FactDoc.dataEmptyReasonOf]

/-- Witness for the amended C7 at a concrete value. -/
theorem c7_no_data_field_amended_witness :
    (normalizeFact (some "w7") none (Val.vobj [("note", Val.vstr "x")]) "T7").data
      = some (Val.vobj [("note", Val.vstr "x")]) ∧
    (normalizeFact (some "w7") none (Val.vobj [("note", Val.vstr "x")]) "T7").dataEmptyReasonOf
      = some "no-data-field-present" ∧
    (normalizeFact (some "w7") none (Val.vobj [("note", Val.vstr "x")]) "T7").meta.bind
      (fun m => m.rawFactIncluded) = some true :=
  c7_no_data_field_amended (Val.vobj [("note", Val.vstr "x")]) (some "w7") none "T7" rfl

/-- C8: stage-specific failure codes and the soft exit.  A missing input
file persists an error document with code 404; an extraction failure
(marker/token/braces) or a structural parse failure persists code 422; an
uncaught internal error persists code 500 through the catch-all — and in
all these failure modes the process exit status is 0. -/
theorem c8_failure_codes (r i o : String) (ups : Option String)
    (inputFile : Option String) (prior : PriorFile) (template : Option FactDoc)
    (hash : String → String) (now : String) :
    ((moduleEntry (some r) (some i) (some o) ups none prior template hash now none).1
        = 0 ∧
      ∃ d, (moduleEntry (some r) (some i) (some o) ups none prior template hash now
          none).2 = some d ∧
        d.statusCode = some 404 ∧ d.statusOf = some "error" ∧ d.okOf = some false) ∧
    (∀ html e, inputFile = some html → extractFact html = Except.error e →
      (moduleEntry (some r) (some i) (some o) ups inputFile prior template hash now
          none).1 = 0 ∧
      ∃ d, (moduleEntry (some r) (some i) (some o) ups inputFile prior template hash now
          none).2 = some d ∧
        d.statusCode = some 422 ∧ d.statusOf = some "error" ∧ d.okOf = some false) ∧
    (∀ html ext e, inputFile = some html → extractFact html = Except.ok ext →
      tryParseObject ext.jsonLike = Except.error e →
      (moduleEntry (some r) (some i) (some o) ups inputFile prior template hash now
          none).1 = 0 ∧
      ∃ d, (moduleEntry (some r) (some i) (some o) ups inputFile prior template hash now
          none).2 = some d ∧
        d.statusCode = some 422 ∧ d.statusOf = some "error" ∧ d.okOf = some false) ∧
    (∀ msg, (moduleEntry (some r) (some i) (some o) ups inputFile prior template hash now
          (some msg)).1 = 0 ∧
      ∃ d, (moduleEntry (some r) (some i) (some o) ups inputFile prior template hash now
          (some msg)).2 = some d ∧
        d.statusCode = some 500 ∧ d.statusOf = some "error" ∧ d.okOf = some false) := by
  refine ⟨⟨?_, ?_⟩, ?_, ?_, ?_⟩
  · simp [moduleEntry, runMain]
  · obtain ⟨hs, hok, hc⟩ := updateStatusOnError_statusFields (loadExisting prior) (some r)
      ups 404 ("Input not found: " ++ i) now template
    exact ⟨_, by simp [moduleEntry, runMain], hc, hs, hok⟩
  · intro html e hin hext
    subst hin
    obtain ⟨hs, hok, hc⟩ := updateStatusOnError_statusFields (loadExisting prior) (some r)
      ups 422 (e ++ " in " ++ i) now template
    exact ⟨by simp [moduleEntry, runMain, hext],
      ⟨_, by simp [moduleEntry, runMain, hext], hc, hs, hok⟩⟩
  · intro html ext e hin hext hp
    subst hin
    obtain ⟨hs, hok, hc⟩ := updateStatusOnError_statusFields (loadExisting prior) (some r)
      ups 422 (e ++ " in " ++ i) now template
    exact ⟨by simp [moduleEntry, runMain, hext, hp],
      ⟨_, by simp [moduleEntry, runMain, hext, hp], hc, hs, hok⟩⟩
  · intro msg
    obtain ⟨hs, hok, hc⟩ := updateStatusOnError_statusFields (loadExisting prior) (some r)
      ups 500 ("parse_fact crashed: " ++ msg) now template
    exact ⟨by simp [moduleEntry], ⟨_, by simp [moduleEntry], hc, hs, hok⟩⟩

/-- Witness for C8: a page whose span parses under neither strategy, so the
invocation takes the 422 structural-parse-failure path and exits 0. -/
theorem c8_failure_codes_witness :
    (moduleEntry (some "r8") (some "i8") (some "o8") none
        (some "DisconSchedule.fact = \x7b:\x7d") .absent none idHash "T8" none).1 = 0 ∧
    ∃ d, (moduleEntry (some "r8") (some "i8") (some "o8") none
        (some "DisconSchedule.fact = \x7b:\x7d") .absent none idHash "T8" none).2
        = some d ∧
      d.statusCode = some 422 ∧ d.statusOf = some "error" ∧ d.okOf = some false :=
  (c8_failure_codes "r8" "i8" "o8" none (some "DisconSchedule.fact = \x7b:\x7d") .absent
      none idHash "T8").2.2.1 "DisconSchedule.fact = \x7b:\x7d" ⟨"\x7b:\x7d", 22, 25⟩
    "Failed to parse object" rfl rfl rfl

theorem normalizeEntry_of_no_match (e : Val) (h : entryShapeMatches e = false) :
    normalizeEntry e = e := by
  simp [normalizeEntry, h]

/-- C9: inside a group-identifier-keyed sequence, an entry that does not
match the expected shape (date/start/end aliases present and both times
matching the H:MM / HH:MM pattern) is passed through unmodified, at its own
position — neither dropped nor turned into an error. -/
theorem c9_unrecognized_entry_preserved (fs : List (String × Val)) (k : String)
    (entries : List Val) (i : Nat)
    (hk : groupKeyRe k = true)
    (hmem : (k, Val.varr entries) ∈ fs)
    (hi : i < entries.length)
    (hshape : entryShapeMatches (entries.getD i Val.vnull) = false) :
    ∃ out : List (String × Val),
      extractGroupsWithIso (Val.vobj fs) = some (Val.vobj out) ∧
      (k, Val.varr (entries.map normalizeEntry)) ∈ out ∧
      i < (entries.map normalizeEntry).length ∧
      (entries.map normalizeEntry).getD i Val.vnull = entries.getD i Val.vnull := by
  have hentry : normalizeEntry (entries.getD i Val.vnull) = entries.getD i Val.vnull :=
    normalizeEntry_of_no_match _ hshape
  have hgetD : (entries.map normalizeEntry).getD i Val.vnull
      = entries.getD i Val.vnull := by
    rw [List.getD_eq_getElem?_getD, List.getD_eq_getElem?_getD, List.getElem?_map]
    cases hg : entries[i]? with
    | none => rfl
    | some e =>
      have he : entries.getD i Val.vnull = e := by
        rw [List.getD_eq_getElem?_getD, hg]
        rfl
      rw [he] at hentry
      simp [hentry]
  have hmem2 : (k, Val.varr (entries.map normalizeEntry)) ∈
      fs.filterMap groupPairTransform :=
    List.mem_filterMap.mpr ⟨(k, Val.varr entries), hmem, by simp [groupPairTransform, hk]⟩
  have hne : fs.filterMap groupPairTransform ≠ [] := List.ne_nil_of_mem hmem2
  refine ⟨fs.filterMap groupPairTransform, ?_, hmem2, by simpa using hi, hgetD⟩
  simp only [extractGroupsWithIso]
  rw [if_neg fun hcontra => hne (by simpa using hcontra)]

/-- Witness for C9: a single-entry group sequence whose entry has none of
the expected fields. -/
theorem c9_unrecognized_entry_preserved_witness :
    ∃ out : List (String × Val),
      extractGroupsWithIso (Val.vobj c9fields) = some (Val.vobj out) ∧
      ("GPV4.2",
        Val.varr ([Val.vobj [("note", Val.vstr "shape unknown")]].map normalizeEntry))
        ∈ out ∧
      0 < ([Val.vobj [("note", Val.vstr "shape unknown")]].map normalizeEntry).length ∧
      ([Val.vobj [("note", Val.vstr "shape unknown")]].map normalizeEntry).getD 0 Val.vnull
        = [Val.vobj [("note", Val.vstr "shape unknown")]].getD 0 Val.vnull :=
  c9_unrecognized_entry_preserved c9fields "GPV4.2"
    [Val.vobj [("note", Val.vstr "shape unknown")]] 0 rfl
    (List.mem_singleton.mpr rfl) (by decide) rfl

/-- C10: a prior output file that is not readable as JSON is
indistinguishable from an absent one — the invocation's exit status and
written document are identical — so after a successful parse over a
corrupted prior file the attempt counter restarts at 1 and `fileCreated` is
set anew to the invocation's instant. -/
theorem c10_corrupted_resets (region input output ups : Option String)
    (inputFile : Option String) (template : Option FactDoc) (hash : String → String)
    (now : String) (crash : Option String) :
    moduleEntry region input output ups inputFile .corrupted template hash now crash
      = moduleEntry region input output ups inputFile .absent template hash now crash ∧
    (∀ (r i o html : String) (ext : Extraction) (pv : Val × String),
      extractFact html = Except.ok ext → tryParseObject ext.jsonLike = Except.ok pv →
      ∃ d : FactDoc,
        runMain (some r) (some i) (some o) ups (some html) .corrupted template hash now
          = (0, some d) ∧
        d.attemptOf = some 1 ∧ d.fileCreatedOf = some now) := by
  constructor
  · unfold moduleEntry runMain
    simp only [loadExisting]
  · intro r i o html ext pv hext hp
    refine ⟨successDoc (some r) ups pv.1 ext.jsonLike none hash now,
      by simp [runMain, hext, hp, loadExisting], ?_, ?_⟩
    · simp [successDoc_eq, FactDoc.attemptOf, prevAttemptOf]
    · rw [successDoc_fileCreatedOf]
      rfl

/-- Witness for C10 at a concrete invocation over a corrupted prior file. -/
theorem c10_corrupted_resets_witness :
    moduleEntry (some "rA") (some "iA") (some "oA") none
        (some "DisconSchedule.fact = \x7b\"z\":2\x7d;") .corrupted none idHash "TA" none
      = moduleEntry (some "rA") (some "iA") (some "oA") none
        (some "DisconSchedule.fact = \x7b\"z\":2\x7d;") .absent none idHash "TA" none ∧
    ∃ d : FactDoc,
      runMain (some "rA") (some "iA") (some "oA") none
        (some "DisconSchedule.fact = \x7b\"z\":2\x7d;") .corrupted none idHash "TA"
        = (0, some d) ∧
      d.attemptOf = some 1 ∧ d.fileCreatedOf = some "TA" :=
  ⟨(c10_corrupted_resets (some "rA") (some "iA") (some "oA") none
      (some "DisconSchedule.fact = \x7b\"z\":2\x7d;") none idHash "TA" none).1,
   (c10_corrupted_resets (some "rA") (some "iA") (some "oA") none
      (some "DisconSchedule.fact = \x7b\"z\":2\x7d;") none idHash "TA" none).2
     "rA" "iA" "oA" "DisconSchedule.fact = \x7b\"z\":2\x7d;"
     ⟨"\x7b\"z\":2\x7d", 22, 29⟩ (Val.vobj [("z", Val.vnum 2)], "json") rfl rfl⟩
